import Mathlib

/-!
Shallow embedding of the Stratify G-code analysis core.

Numbers of the JavaScript/TypeScript source are modelled as exact
rationals (`ℚ`); the non-finite IEEE values that arise from division by
zero are modelled explicitly by the `JSNum` type.  Optional (`?`) record
fields become `Option` fields, and JavaScript truthiness tests on numeric
fields (`x && p(x)`) are modelled by `numTruthy`.
-/

namespace Stratify

/-! ## Data model (shared types, from `server.ts` declarations) -/

/-- Pattern-detection flags of `GeometryAnalysis.pattern_detection`. -/
structure PatternDetection where
  support_detected : Option Bool
  bridging_detected : Option Bool
deriving DecidableEq, Repr

/-- Extrusion totals of `GeometryAnalysis.extrusion_stats`. -/
structure ExtrusionStats where
  total_filament : Option ℚ
  estimated_weight : Option ℚ
deriving DecidableEq, Repr

/-- The `GeometryAnalysis` interface (the fields the services read). -/
structure GeometryAnalysis where
  time_estimate : Option ℚ
  extrusion_stats : Option ExtrusionStats
  pattern_detection : Option PatternDetection
deriving DecidableEq, Repr

/-- The `SlicerProfile` interface: every field is optional. -/
structure SlicerProfile where
  slicer_name : Option String
  version : Option String
  layer_height : Option ℚ
  first_layer_height : Option ℚ
  nozzle_diameter : Option ℚ
  extrusion_width : Option ℚ
  print_speed : Option ℚ
  travel_speed : Option ℚ
  retraction_distance : Option ℚ
  retraction_speed : Option ℚ
  temperature_nozzle : Option ℚ
  temperature_bed : Option ℚ
  infill_density : Option ℚ
  infill_pattern : Option String
  support_enabled : Option Bool
  wall_count : Option ℚ
  top_layers : Option ℚ
  bottom_layers : Option ℚ
deriving DecidableEq, Repr

/-- An all-absent slicer profile, used to build concrete test inputs. -/
def emptyProfile : SlicerProfile :=
  ⟨none, none, none, none, none, none, none, none, none,
   none, none, none, none, none, none, none, none, none⟩

/-- One entry of the `LayerAnalysis` list. -/
structure LayerAnalysis where
  z_height : ℚ
  thickness : ℚ
  extrusion_moves : ℕ
  travel_moves : ℕ
  extrusion_distance : ℚ
  travel_distance : ℚ
  extrusion_volume : ℚ
  print_time : ℚ
deriving DecidableEq, Repr

/-- The `status` union `'processing' | 'complete' | 'error'`. -/
inductive AnalysisStatus
  | processing
  | complete
  | error
deriving DecidableEq, Repr

/-- The `impact` union `'High' | 'Medium' | 'Low'`. -/
inductive Impact
  | high
  | medium
  | low
deriving DecidableEq, Repr

/-- The `category` union `'Speed' | 'Material' | 'Quality' | 'Safety'`. -/
inductive Category
  | speed
  | material
  | quality
  | safety
deriving DecidableEq, Repr

/-- String form of a category, as it is stored in the TypeScript union. -/
def Category.str : Category → String
  | .speed => "Speed"
  | .material => "Material"
  | .quality => "Quality"
  | .safety => "Safety"

/-- The `OptimizationSuggestion` interface. -/
structure OptimizationSuggestion where
  category : Category
  title : String
  description : String
  impact : Impact
  time_saving : Option String
  material_saving : Option String
  implementation : Option String
  potential_issues : List String
deriving DecidableEq, Repr

/-- The `AnalysisResult` interface (the `metadata : Record<string, any>`
field carries no typed content and is not modelled). -/
structure AnalysisResult where
  id : String
  filepath : String
  timestamp : ℕ
  profile : Option SlicerProfile
  geometry : Option GeometryAnalysis
  layers : List LayerAnalysis
  suggestions : List OptimizationSuggestion
  status : AnalysisStatus
  error : Option String
deriving DecidableEq, Repr

/-! ## JavaScript numeric semantics -/

/-- A JavaScript number: a finite value, one of the two infinities, or
NaN.  Finite arithmetic stays exact in `ℚ`; only division can leave the
finite range here. -/
inductive JSNum
  | val (q : ℚ)
  | posInf
  | negInf
  | nan
deriving DecidableEq, Repr

/-- JavaScript division `a / b`: division by zero yields a signed
infinity (or NaN for `0 / 0`). -/
def jsDiv (a b : ℚ) : JSNum :=
  if b = 0 then
    if a = 0 then .nan else if 0 < a then .posInf else .negInf
  else .val (a / b)

/-- Multiplication of a JavaScript number by the positive constant 100
(as in the `× 100` step of every difference-percentage computation). -/
def JSNum.mul100 : JSNum → JSNum
  | .val q => .val (q * 100)
  | .posInf => .posInf
  | .negInf => .negInf
  | .nan => .nan

/-- JavaScript comparison `x > c` for a possibly non-finite `x`:
`Infinity > c` is true, `-Infinity > c` and `NaN > c` are false. -/
def JSNum.gt (x : JSNum) (c : ℚ) : Bool :=
  match x with
  | .val q => decide (c < q)
  | .posInf => true
  | .negInf => false
  | .nan => false

/-- Truthiness of an optional numeric field: absent, `0` (and NaN, which
cannot arise among our exact rationals) are falsy. -/
def numTruthy (o : Option ℚ) : Bool :=
  match o with
  | some x => decide (x ≠ 0)
  | none => false

/-- Truthiness of `o` combined with a further test on its value, the
shape of every `x.f && p(x.f)` guard in the source. -/
def numTruthyAnd (o : Option ℚ) (p : ℚ → Bool) : Bool :=
  match o with
  | some x => decide (x ≠ 0) && p x
  | none => false

/-- `Math.min` over a list (the services only apply it to the non-empty
argument lists produced from at least two analyses; the empty case is
mapped to 0 and is never reached under the arity guard). -/
def listMin : List ℚ → ℚ
  | [] => 0
  | x :: xs => xs.foldl min x

/-- `Math.max` over a list (same non-empty proviso as `listMin`). -/
def listMax : List ℚ → ℚ
  | [] => 0
  | x :: xs => xs.foldl max x

/-- `Math.min` over a list of naturals (layer counts). -/
def listMinN : List ℕ → ℕ
  | [] => 0
  | x :: xs => xs.foldl min x

/-- `Math.max` over a list of naturals (layer counts). -/
def listMaxN : List ℕ → ℕ
  | [] => 0
  | x :: xs => xs.foldl max x

/-- Rendering of `Number.prototype.toFixed(digits)`: round to the given
number of decimal digits and print the rounded rational. -/
def toFixed (digits : ℕ) (q : ℚ) : String :=
  toString (((⌊q * (10 : ℚ) ^ digits + 1 / 2⌋ : ℤ) : ℚ) / (10 : ℚ) ^ digits)

/-- `toFixed` lifted to JavaScript numbers. -/
def JSNum.toFixed (digits : ℕ) : JSNum → String
  | .val q => Stratify.toFixed digits q
  | .posInf => "Infinity"
  | .negInf => "-Infinity"
  | .nan => "NaN"

/-! ## ComparisonService (`comparisonService.ts`) -/

/-- A `{values, winner, difference}` metric entry of `ComparisonResult`. -/
structure MetricWinner where
  values : List ℚ
  winner : ℕ
  difference : JSNum
deriving DecidableEq, Repr

/-- A `{values, comparison}` metric entry (layer counts). -/
structure MetricComparison where
  values : List ℕ
  comparison : String
deriving DecidableEq, Repr

/-- The `metrics` record of `ComparisonResult`: each key is present
exactly when the corresponding metric was requested. -/
structure ComparisonMetrics where
  print_time : Option MetricWinner
  material_usage : Option MetricWinner
  layer_count : Option MetricComparison
  quality_score : Option MetricWinner
deriving DecidableEq, Repr

/-- The `ComparisonResult` interface. -/
structure ComparisonResult where
  files : List String
  metrics : ComparisonMetrics
  recommendations : List String
  summary : String
deriving DecidableEq, Repr

/-- `path.basename` on a POSIX path. -/
def basename (p : String) : String :=
  (p.splitOn ("/")).getLastD p

/-- The value `a.geometry?.time_estimate || 0` read for the print-time
metric. -/
def timeValue (a : AnalysisResult) : ℚ :=
  ((a.geometry.bind (·.time_estimate)).getD 0)

/-- The value `a.geometry?.extrusion_stats?.total_filament || 0` read
for the material-usage metric. -/
def materialValue (a : AnalysisResult) : ℚ :=
  (((a.geometry.bind (·.extrusion_stats)).bind (·.total_filament)).getD 0)

/-- The flag `a.geometry?.pattern_detection?.support_detected` under
truthiness. -/
def supportDetected (a : AnalysisResult) : Bool :=
  (((a.geometry.bind (·.pattern_detection)).bind (·.support_detected)).getD false)

/-- The flag `a.geometry?.pattern_detection?.bridging_detected` under
truthiness. -/
def bridgingDetected (a : AnalysisResult) : Bool :=
  (((a.geometry.bind (·.pattern_detection)).bind (·.bridging_detected)).getD false)

/-- `ComparisonService.calculateQualityScore`, with its sequential score
updates: each `if` mirrors one truthiness-guarded branch of the source,
and the result is clamped by `Math.max(0, Math.min(100, score))`. -/
def calculateQualityScore (analysis : AnalysisResult) : ℚ :=
  let lh := analysis.profile.bind (·.layer_height)
  let idf := analysis.profile.bind (·.infill_density)
  let s0 : ℚ := 100
  let s1 := if numTruthyAnd lh (fun h => decide ((3/10 : ℚ) < h)) then s0 - 10 else s0
  let s2 := if numTruthyAnd idf (fun d => decide (d < (10 : ℚ))) then s1 - 15 else s1
  let s3 := if supportDetected analysis then s2 - 5 else s2
  let s4 := if bridgingDetected analysis then s3 - 10 else s3
  let s5 := if numTruthyAnd lh
      (fun h => decide ((15/100 : ℚ) ≤ h) && decide (h ≤ (25/100 : ℚ))) then s4 + 5 else s4
  max 0 (min 100 s5)

/-- The `print_time` block of `generateComparison`. -/
def printTimeMetric (analyses : List AnalysisResult) : MetricWinner :=
  let printTimes := analyses.map timeValue
  let minIndex := printTimes.indexOf (listMin printTimes)
  { values := printTimes
    winner := minIndex
    difference :=
      if 1 < printTimes.length then
        (jsDiv (listMax printTimes - listMin printTimes) (listMin printTimes)).mul100
      else .val 0 }

/-- The `material_usage` block of `generateComparison`. -/
def materialUsageMetric (analyses : List AnalysisResult) : MetricWinner :=
  let materialUsage := analyses.map materialValue
  let minIndex := materialUsage.indexOf (listMin materialUsage)
  { values := materialUsage
    winner := minIndex
    difference :=
      if 1 < materialUsage.length then
        (jsDiv (listMax materialUsage - listMin materialUsage) (listMin materialUsage)).mul100
      else .val 0 }

/-- `ComparisonService.compareLayerCounts`. -/
def compareLayerCounts (layerCounts : List ℕ) : String :=
  let mn := listMinN layerCounts
  let mx := listMaxN layerCounts
  if mn = mx then "All files have the same number of layers"
  else
    let difference := mx - mn
    let percentDiff := (jsDiv ((mx : ℚ) - (mn : ℚ)) (mn : ℚ)).mul100
    if percentDiff.gt 50 then
      "Significant layer count variation (" ++ toString difference ++ " layers difference)"
    else if percentDiff.gt 20 then
      "Moderate layer count variation (" ++ toString difference ++ " layers difference)"
    else
      "Minor layer count variation (" ++ toString difference ++ " layers difference)"

/-- The `layer_count` block of `generateComparison`
(`a.layers?.length || 0`). -/
def layerCountMetric (analyses : List AnalysisResult) : MetricComparison :=
  let layerCounts := analyses.map (fun a => a.layers.length)
  { values := layerCounts, comparison := compareLayerCounts layerCounts }

/-- The `quality_score` block of `generateComparison`.  Note that the
denominator of the difference is the maximum score. -/
def qualityScoreMetric (analyses : List AnalysisResult) : MetricWinner :=
  let qualityScores := analyses.map calculateQualityScore
  let maxIndex := qualityScores.indexOf (listMax qualityScores)
  { values := qualityScores
    winner := maxIndex
    difference :=
      if 1 < qualityScores.length then
        (jsDiv (listMax qualityScores - listMin qualityScores) (listMax qualityScores)).mul100
      else .val 0 }

/-- `ComparisonService.generateRecommendations`. -/
def generateRecommendations (analyses : List AnalysisResult) (files : List String)
    (metrics : ComparisonMetrics) : List String :=
  let timeRecs :=
    match metrics.print_time with
    | some m =>
        if m.difference.gt 20 then
          ["Consider using settings from \"" ++ files.getD m.winner ("") ++ "\" for "
            ++ m.difference.toFixed 1 ++ "% faster printing"]
        else []
    | none => []
  let materialRecs :=
    match metrics.material_usage with
    | some m =>
        if m.difference.gt 15 then
          ["Settings from \"" ++ files.getD m.winner ("") ++ "\" use "
            ++ m.difference.toFixed 1 ++ "% less material"]
        else []
    | none => []
  let qualityRecs :=
    match metrics.quality_score with
    | some m =>
        ["\"" ++ files.getD m.winner ("") ++ "\" has the highest predicted quality score"]
    | none => []
  let layerHeights :=
    ((analyses.map (fun a => a.profile.bind (·.layer_height))).filterMap id).filter
      (fun h => decide (h ≠ 0))
  let layerRecs :=
    if layerHeights.length ≠ 0 then
      let avgLayerHeight := layerHeights.sum / (layerHeights.length : ℚ)
      if (25/100 : ℚ) < avgLayerHeight then
        ["Consider reducing layer height for better surface quality"]
      else if avgLayerHeight < (15/100 : ℚ) then
        ["Consider increasing layer height for faster printing"]
      else []
    else []
  let infillDensities :=
    (analyses.map (fun a => a.profile.bind (·.infill_density))).filterMap id
  let infillRecs :=
    if infillDensities.length ≠ 0 then
      if (30 : ℚ) < listMax infillDensities - listMin infillDensities then
        ["Large infill density variation detected - consider standardizing for consistent results"]
      else []
    else []
  timeRecs ++ materialRecs ++ qualityRecs ++ layerRecs ++ infillRecs

/-- `ComparisonService.generateSummary`. -/
def generateSummary (files : List String) (metrics : ComparisonMetrics)
    (recommendations : List String) (fileCount : ℕ) : String :=
  let parts : List String :=
    ["Compared " ++ toString fileCount ++ " G-code files."]
    ++ (match metrics.print_time with
        | some m =>
            ["Fastest: \"" ++ files.getD m.winner ("") ++ "\" ("
              ++ m.difference.toFixed 1 ++ "% faster than slowest)."]
        | none => [])
    ++ (match metrics.material_usage with
        | some m =>
            ["Most efficient: \"" ++ files.getD m.winner ("") ++ "\" ("
              ++ m.difference.toFixed 1 ++ "% less material)."]
        | none => [])
    ++ (if recommendations.length ≠ 0 then
          [toString recommendations.length ++ " optimization suggestions identified."]
        else [])
  String.intercalate (" ") parts

/-- `ComparisonService.generateComparison`: each metric block runs when
its name is in the requested `metrics` list. -/
def generateComparison (analyses : List AnalysisResult) (metrics : List String) :
    ComparisonResult :=
  let files := analyses.map (fun a => basename a.filepath)
  let m : ComparisonMetrics :=
    { print_time := if metrics.contains ("printTime") then some (printTimeMetric analyses) else none
      material_usage := if metrics.contains ("material") then some (materialUsageMetric analyses) else none
      layer_count := if metrics.contains ("layers") then some (layerCountMetric analyses) else none
      quality_score := if metrics.contains ("quality") then some (qualityScoreMetric analyses) else none }
  let recommendations := generateRecommendations analyses files m
  { files := files
    metrics := m
    recommendations := recommendations
    summary := generateSummary files m recommendations analyses.length }

/-- `ComparisonService.compare` (json output path).  The subprocess
analysis of each filepath is modelled by pairing each path with its
outcome: `none` when `analysisService.analyze` threw, `some result`
when it resolved.  The source first rejects fewer than two paths, then
analyzes the paths in order and rethrows the first failure; only then
is the comparison generated. -/
def compare (fileOutcomes : List (String × Option AnalysisResult))
    (metrics : List String) : Except String ComparisonResult :=
  if fileOutcomes.length < 2 then
    .error ("At least 2 files are required for comparison")
  else
    match collectAnalyses fileOutcomes with
    | .error e => .error e
    | .ok analyses => .ok (generateComparison analyses metrics)
where
  /-- The sequential `for`-loop over the file paths: the first failed
  analysis aborts with a `Failed to analyze` error. -/
  collectAnalyses : List (String × Option AnalysisResult) → Except String (List AnalysisResult)
    | [] => .ok []
    | (filepath, none) :: _ => .error ("Failed to analyze " ++ filepath)
    | (_, some a) :: rest =>
        match collectAnalyses rest with
        | .error e => .error e
        | .ok l => .ok (a :: l)

/-! ## OptimizationService (`optimizationService.ts`) -/

/-- The `priority` union `'speed' | 'quality' | 'material'`. -/
inductive OptPriority
  | speed
  | quality
  | material
deriving DecidableEq, Repr

/-- String form of a priority, as stored in the TypeScript union. -/
def OptPriority.str : OptPriority → String
  | .speed => "speed"
  | .quality => "quality"
  | .material => "material"

/-- The `constraints` record of `OptimizationProfile`. -/
structure OptimizationConstraints where
  maxPrintTime : Option ℚ
  minQuality : Option ℚ
  maxMaterial : Option ℚ
deriving DecidableEq, Repr

/-- The `OptimizationProfile` interface of the optimization service. -/
structure OptimizationProfile where
  priority : OptPriority
  constraints : OptimizationConstraints
deriving DecidableEq, Repr

/-- Rendering of a template-literal interpolation `${x}` of a numeric
value. -/
def numStr (q : ℚ) : String :=
  toString q

/-- `OptimizationService.calculateLayerHeightTimeSaving`. -/
def calculateLayerHeightTimeSaving (currentHeight newHeight currentTime : ℚ) : ℚ :=
  let r := currentHeight / newHeight
  let newTime := currentTime / r
  (currentTime - newTime) / 60

/-- Truncation toward zero, as JavaScript's `%` uses on its quotient. -/
def jsTrunc (q : ℚ) : ℤ :=
  q.num / (q.den : ℤ)

/-- The JavaScript remainder `a % b` (sign follows the dividend). -/
def jsMod (a b : ℚ) : ℚ :=
  a - b * ((jsTrunc (a / b) : ℤ) : ℚ)

/-- `OptimizationService.formatTime` (with the day case). -/
def formatTimeLong (seconds : ℚ) : String :=
  let hours : ℤ := ⌊seconds / 3600⌋
  let minutes : ℤ := ⌊jsMod seconds 3600 / 60⌋
  if 24 < hours then
    toString (hours / 24) ++ "d " ++ toString (hours % 24) ++ "h"
  else if 0 < hours then
    toString hours ++ "h " ++ toString minutes ++ "m"
  else
    toString minutes ++ "m"

/-- `OptimizationService.generateSpeedOptimizations`: four rules, each
appending one suggestion when its truthiness-guarded predicate holds. -/
def generateSpeedOptimizations (analysis : AnalysisResult) : List OptimizationSuggestion :=
  let lh := analysis.profile.bind (·.layer_height)
  let idf := analysis.profile.bind (·.infill_density)
  let ps := analysis.profile.bind (·.print_speed)
  (if numTruthyAnd lh (fun h => decide (h < (2/10 : ℚ))) then
    [{ category := .speed
       title := "Increase Layer Height"
       description := "Current layer height is " ++ numStr (lh.getD 0)
         ++ "mm. Increasing to 0.25mm would reduce print time significantly."
       impact := .high
       time_saving := some ("~"
         ++ toFixed 0 (calculateLayerHeightTimeSaving (lh.getD 0) (25/100 : ℚ) (timeValue analysis))
         ++ " minutes")
       material_saving := none
       implementation := some ("Change layer height to 0.25mm in slicer settings")
       potential_issues := ["Slightly reduced surface quality", "Less detail on vertical surfaces"] }]
   else []) ++
  ((if numTruthyAnd idf (fun d => decide ((25 : ℚ) < d)) then
    [{ category := .speed
       title := "Reduce Infill Density"
       description := "Current infill is " ++ numStr (idf.getD 0)
         ++ "%. Reducing to 20% maintains strength while reducing print time."
       impact := .medium
       time_saving := some ("~15-25%")
       material_saving := none
       implementation := some ("Set infill density to 20% in slicer")
       potential_issues := ["Slightly reduced strength", "May affect top surface quality"] }]
   else []) ++
  ((if numTruthyAnd ps (fun v => decide (v < (50 : ℚ))) then
    [{ category := .speed
       title := "Increase Print Speed"
       description := "Current print speed is " ++ numStr (ps.getD 0)
         ++ "mm/s. Can safely increase to 60mm/s for most materials."
       impact := .medium
       time_saving := some ("~20%")
       material_saving := none
       implementation := some ("Increase print speed in slicer settings")
       potential_issues := ["May reduce quality if printer cannot handle higher speeds",
         "Check printer capabilities"] }]
   else []) ++
  (if supportDetected analysis then
    [{ category := .speed
       title := "Optimize Support Settings"
       description := "Supports detected. Consider reducing support density or using tree supports for faster printing."
       impact := .medium
       time_saving := some ("~10-30%")
       material_saving := none
       implementation := some ("Reduce support density to 15% or switch to tree supports")
       potential_issues := ["May require more careful part orientation", "Verify support effectiveness"] }]
   else [])))

/-- `OptimizationService.generateQualityOptimizations`. -/
def generateQualityOptimizations (analysis : AnalysisResult) : List OptimizationSuggestion :=
  let lh := analysis.profile.bind (·.layer_height)
  let ps := analysis.profile.bind (·.print_speed)
  let wc := analysis.profile.bind (·.wall_count)
  let tn := analysis.profile.bind (·.temperature_nozzle)
  (if numTruthyAnd lh (fun h => decide ((2/10 : ℚ) < h)) then
    [{ category := .quality
       title := "Reduce Layer Height"
       description := "Current layer height is " ++ numStr (lh.getD 0)
         ++ "mm. Reducing to 0.15mm will improve surface quality."
       impact := .high
       time_saving := none
       material_saving := none
       implementation := some ("Set layer height to 0.15mm in slicer")
       potential_issues := ["Increased print time (~50%)", "Higher chance of print failures"] }]
   else []) ++
  ((if numTruthyAnd ps (fun v => decide ((60 : ℚ) < v)) then
    [{ category := .quality
       title := "Reduce Print Speed"
       description := "Current speed is " ++ numStr (ps.getD 0)
         ++ "mm/s. Reducing to 40mm/s will improve quality."
       impact := .medium
       time_saving := none
       material_saving := none
       implementation := some ("Reduce print speed to 40mm/s")
       potential_issues := ["Increased print time (~30%)", "May require temperature adjustments"] }]
   else []) ++
  ((if numTruthyAnd wc (fun w => decide (w < (3 : ℚ))) then
    [{ category := .quality
       title := "Increase Wall Count"
       description := "Current wall count is " ++ numStr (wc.getD 0)
         ++ ". Increasing to 3 walls improves strength and surface quality."
       impact := .medium
       time_saving := none
       material_saving := none
       implementation := some ("Set wall count to 3 in slicer settings")
       potential_issues := ["Increased material usage", "Longer print time"] }]
   else []) ++
  (if numTruthyAnd tn (fun t => decide ((220 : ℚ) < t)) then
    [{ category := .quality
       title := "Optimize Temperature"
       description := "Nozzle temperature is " ++ numStr (tn.getD 0)
         ++ "°C. Consider lowering for better surface quality."
       impact := .medium
       time_saving := none
       material_saving := none
       implementation := some ("Reduce nozzle temperature by 5-10°C")
       potential_issues := ["May cause under-extrusion", "Test on small part first"] }]
   else [])))

/-- `OptimizationService.generateMaterialOptimizations`. -/
def generateMaterialOptimizations (analysis : AnalysisResult) : List OptimizationSuggestion :=
  let idf := analysis.profile.bind (·.infill_density)
  let ew := analysis.profile.bind (·.extrusion_width)
  let wc := analysis.profile.bind (·.wall_count)
  (if numTruthyAnd idf (fun d => decide ((20 : ℚ) < d)) then
    [{ category := .material
       title := "Reduce Infill Density"
       description := "Current infill is " ++ numStr (idf.getD 0)
         ++ "%. Reducing to 15% maintains adequate strength for most parts."
       impact := .high
       time_saving := none
       material_saving := some ("~"
         ++ toFixed 1 (materialValue analysis * ((idf.getD 0 - 15) / idf.getD 0 * (7/10 : ℚ)))
         ++ "m filament")
       implementation := some ("Set infill density to 15% in slicer")
       potential_issues := ["Reduced strength", "May affect bridging quality"] }]
   else []) ++
  ((if numTruthy ew && numTruthy wc
       && decide ((16/10 : ℚ) < ew.getD 0 * wc.getD 0) then
    [{ category := .material
       title := "Optimize Wall Thickness"
       description := "Current wall thickness is " ++ toFixed 2 (ew.getD 0 * wc.getD 0)
         ++ "mm. Can reduce without affecting strength significantly."
       impact := .medium
       time_saving := none
       material_saving := some ("~10-15%")
       implementation := some ("Reduce wall count by 1 or decrease extrusion width")
       potential_issues := ["Slightly reduced strength", "May affect surface quality"] }]
   else []) ++
  ((if supportDetected analysis then
    [{ category := .material
       title := "Minimize Support Material"
       description := "Optimize part orientation to reduce support material usage."
       impact := .medium
       time_saving := none
       material_saving := some ("~20-40%")
       implementation := some ("Rotate part to minimize overhangs, use tree supports")
       potential_issues := ["May require design changes", "Verify structural integrity"] }]
   else []) ++
  (if decide ((100 : ℚ) < materialValue analysis) then
    [{ category := .material
       title := "Consider Hollow Design"
       description := "For large parts, consider making hollow with drainage holes to save material."
       impact := .high
       time_saving := none
       material_saving := some ("~30-70%")
       implementation := some ("Modify design to create hollow interior with wall thickness 2-3mm")
       potential_issues := ["Requires design changes", "May need internal supports"] }]
   else [])))

/-- `OptimizationService.generateSafetyOptimizations`: evaluated on
every call, independent of the requested priority. -/
def generateSafetyOptimizations (analysis : AnalysisResult) : List OptimizationSuggestion :=
  let tn := analysis.profile.bind (·.temperature_nozzle)
  let tb := analysis.profile.bind (·.temperature_bed)
  (if numTruthyAnd tn (fun t => decide ((250 : ℚ) < t)) then
    [{ category := .safety
       title := "High Temperature Warning"
       description := "Nozzle temperature is " ++ numStr (tn.getD 0)
         ++ "°C. Ensure proper ventilation and safety precautions."
       impact := .high
       time_saving := none
       material_saving := none
       implementation := some ("Verify material requirements, ensure proper ventilation")
       potential_issues := ["Risk of burns", "Potential toxic fumes", "Increased wear on hotend"] }]
   else []) ++
  ((if numTruthyAnd tb (fun t => decide ((100 : ℚ) < t)) then
    [{ category := .safety
       title := "High Bed Temperature Warning"
       description := "Bed temperature is " ++ numStr (tb.getD 0)
         ++ "°C. High temperatures may warp build surface or cause burns."
       impact := .medium
       time_saving := none
       material_saving := none
       implementation := some ("Verify bed material compatibility, use caution when removing prints")
       potential_issues := ["Risk of burns", "Potential bed damage", "Warping"] }]
   else []) ++
  (if decide ((86400 : ℚ) < timeValue analysis) then -- 24 * 3600 seconds
    [{ category := .safety
       title := "Long Print Duration Warning"
       description := "Estimated print time is " ++ formatTimeLong (timeValue analysis)
         ++ ". Consider monitoring and power backup."
       impact := .medium
       time_saving := none
       material_saving := none
       implementation := some ("Set up monitoring, ensure stable power supply, check first layers carefully")
       potential_issues := ["Risk of print failure", "Power outage vulnerability",
         "Increased wear on printer"] }]
   else []))

/-- The impact weights used by `rankSuggestions`. -/
def impactWeight : Impact → ℕ
  | .high => 3
  | .medium => 2
  | .low => 1

/-- ASCII lower-casing of one character, as
`String.prototype.toLowerCase` acts on the category names. -/
def charToLower (c : Char) : Char :=
  if ('A') ≤ c ∧ c ≤ ('Z') then Char.ofNat (c.toNat + 32) else c

/-- `String.prototype.toLowerCase` (ASCII range, which covers the four
category names). -/
def toLowerCase (s : String) : String :=
  String.mk (s.data.map charToLower)

/-- The test `a.category.toLowerCase() === profile.priority` of the
ranking comparator. -/
def catMatches (c : Category) (p : OptPriority) : Bool :=
  toLowerCase c.str == p.str

/-- The single key ordering the comparator of `rankSuggestions`:
priority-matching categories dominate (bonus 4 exceeds every impact
weight), impact weight breaks ties inside each group. -/
def rankVal (p : OptPriority) (s : OptimizationSuggestion) : ℕ :=
  (if catMatches s.category p then 4 else 0) + impactWeight s.impact

/-- Stable insertion step: `x` (an element earlier in the input than
everything in the accumulated sorted tail) passes over strictly larger
keys and lands before the first element whose key is at most its own. -/
def insertRanked (p : OptPriority) (x : OptimizationSuggestion) :
    List OptimizationSuggestion → List OptimizationSuggestion
  | [] => [x]
  | y :: ys =>
      if rankVal p y ≤ rankVal p x then x :: y :: ys
      else y :: insertRanked p x ys

/-- Stable insertion sort by descending `rankVal`. -/
def sortRanked (p : OptPriority) : List OptimizationSuggestion → List OptimizationSuggestion
  | [] => []
  | x :: xs => insertRanked p x (sortRanked p xs)

/-- `OptimizationService.rankSuggestions`: `Array.prototype.sort` with
the priority-then-impact comparator.  The comparator is consistent with
the total preorder induced by `rankVal`, and ECMAScript requires `sort`
to be stable, so the result is the unique stable descending order by
`rankVal`, modelled here by a stable insertion sort. -/
def rankSuggestions (suggestions : List OptimizationSuggestion)
    (profile : OptimizationProfile) : List OptimizationSuggestion :=
  sortRanked profile.priority suggestions

/-- The unranked concatenation built by
`OptimizationService.generateOptimizations`: Speed / Quality / Material
blocks under their inclusion conditions (note the negated truthiness on
`maxPrintTime`), then the Safety block unconditionally. -/
def collectOptimizations (analysis : AnalysisResult) (profile : OptimizationProfile) :
    List OptimizationSuggestion :=
  (if decide (profile.priority = .speed) || !(numTruthy profile.constraints.maxPrintTime) then
    generateSpeedOptimizations analysis
   else []) ++
  ((if decide (profile.priority = .quality) || numTruthy profile.constraints.minQuality then
    generateQualityOptimizations analysis
   else []) ++
  ((if decide (profile.priority = .material) || numTruthy profile.constraints.maxMaterial then
    generateMaterialOptimizations analysis
   else []) ++
  generateSafetyOptimizations analysis))

/-- `OptimizationService.generateOptimizations`. -/
def generateOptimizations (analysis : AnalysisResult) (profile : OptimizationProfile) :
    List OptimizationSuggestion :=
  rankSuggestions (collectOptimizations analysis profile) profile

/-- The `type` union of `analyzeForIssues` entries. -/
inductive IssueType
  | warning
  | error
  | info
deriving DecidableEq, Repr

/-- One issue record of `analyzeForIssues`. -/
structure PrintIssue where
  type : IssueType
  category : String
  message : String
  suggestion : Option String
deriving DecidableEq, Repr

/-- The `{issues, score}` result of `analyzeForIssues`. -/
structure IssueReport where
  issues : List PrintIssue
  score : ℚ
deriving DecidableEq, Repr

/-- `OptimizationService.analyzeForIssues`: four checks, each pushing an
issue and lowering the score; the score is floored by `Math.max(0, ·)`. -/
def analyzeForIssues (analysis : AnalysisResult) : IssueReport :=
  let tn := analysis.profile.bind (·.temperature_nozzle)
  let lh := analysis.profile.bind (·.layer_height)
  let bridging := bridgingDetected analysis
  let support := supportDetected analysis
  let highTemp := numTruthyAnd tn (fun t => decide ((280 : ℚ) < t))
  let thinLayers := numTruthyAnd lh (fun h => decide (h < (1/10 : ℚ)))
  let issues :=
    (if bridging then
      [{ type := .warning
         category := "Bridging"
         message := "Bridging detected - may result in poor surface quality"
         suggestion := some ("Consider adding supports or modifying part orientation") }]
     else []) ++
    ((if support then
      [{ type := .info
         category := "Supports"
         message := "Support material required"
         suggestion := some ("Optimize orientation to minimize support usage") }]
     else []) ++
    ((if highTemp then
      [{ type := .error
         category := "Temperature"
         message := "Extremely high nozzle temperature: " ++ numStr (tn.getD 0) ++ "°C"
         suggestion := some ("Verify material requirements and printer capabilities") }]
     else []) ++
    (if thinLayers then
      [{ type := .warning
         category := "Layer Height"
         message := "Very thin layers: " ++ numStr (lh.getD 0) ++ "mm"
         suggestion := some ("Extremely long print times - consider increasing layer height") }]
     else [])))
  let s0 : ℚ := 100
  let s1 := if bridging then s0 - 10 else s0
  let s2 := if support then s1 - 5 else s1
  let s3 := if highTemp then s2 - 20 else s2
  let s4 := if thinLayers then s3 - 15 else s3
  { issues := issues, score := max 0 s4 }

/-! ## AnalysisService progress tracking (`analysisService.ts`)

One job's interaction with the `processingJobs` map is modelled as a
state machine: `analyze` first stores `{progress: 0, stage: 'starting'}`
and initialises the interval's closure variable `progress = 10`; every
interval tick sets the variable to `Math.min(progress + 10, 90)` and
stores it; the `close` handler deletes the record (and on success the
progress callback is invoked with `(100, 'complete')`). -/

/-- A `{progress, stage}` record of the `processingJobs` map. -/
structure ProcessingRecord where
  progress : ℕ
  stage : String
deriving DecidableEq, Repr

/-- The state of one job: its map entry (if present) and the interval
closure's `progress` variable. -/
structure JobState where
  record : Option ProcessingRecord
  acc : ℕ
deriving DecidableEq, Repr

/-- Job start: `processingJobs.set(id, {progress: 0, stage: 'starting'})`
and `let progress = 10`. -/
def initJob : JobState :=
  { record := some { progress := 0, stage := "starting" }, acc := 10 }

/-- One interval tick: `progress = Math.min(progress + 10, 90)` followed
by `processingJobs.set(id, {progress, stage: 'analyzing'})`. -/
def tickJob (s : JobState) : JobState :=
  let p := min (s.acc + 10) 90
  { record := some { progress := p, stage := "analyzing" }, acc := p }

/-- The `close` handler: `clearInterval` and
`processingJobs.delete(id)`. -/
def closeJob (s : JobState) : JobState :=
  { record := none, acc := s.acc }

/-- `AnalysisService.isProcessing`: `processingJobs.get(id) || null`. -/
def isProcessing (s : JobState) : Option ProcessingRecord :=
  s.record

/-- The job state after `k` interval ticks. -/
def afterTicks : ℕ → JobState
  | 0 => initJob
  | k + 1 => tickJob (afterTicks k)

/-- Every progress value stored in the map over a lifetime of `n`
ticks, in order: the initial 0 and then each tick's value. -/
def storedValues (n : ℕ) : List ℕ :=
  0 :: (List.range n).map (fun i => (afterTicks (i + 1)).acc)

/-- The `(progress, stage)` events delivered to the progress callback
over a lifetime of `n` ticks: one per tick, then `(100, 'complete')`
exactly when the subprocess exits with code 0. -/
def callbackEvents (n : ℕ) (success : Bool) : List (ℕ × String) :=
  (List.range n).map (fun i => ((afterTicks (i + 1)).acc, "analyzing"))
  ++ (if success then [(100, "complete")] else [])

/-! ## Command stream parser (`shared/utils/index.ts`)

Lines are modelled as lists of characters.  The two regular expressions
of `parseGCodeCommand` are deterministic on their inputs and are
modelled by direct scanning functions. -/

/-- The whitespace recognised by `String.prototype.trim` (the ASCII
part, which is all the G-code sources produce). -/
def isWS (c : Char) : Bool :=
  c == ' ' || c == '\t' || c == '\n' || c == '\r'

/-- `String.prototype.trim`. -/
def trimChars (l : List Char) : List Char :=
  ((l.dropWhile isWS).reverse.dropWhile isWS).reverse

/-- The character class `[-\d.]` of the parameter regex. -/
def isNumChar (c : Char) : Bool :=
  c == '-' || c.isDigit || c == '.'

/-- Value of a digit string. -/
def digitsVal (ds : List Char) : ℕ :=
  ds.foldl (fun acc c => acc * 10 + (c.toNat - 48)) 0

/-- Value of a fractional digit string (the part after the point). -/
def fracVal (ds : List Char) : ℚ :=
  (digitsVal ds : ℚ) / (10 : ℚ) ^ ds.length

/-- `parseFloat` on the strings captured here (sign, digits, optional
point; the captured classes contain no exponent letters): the longest
valid decimal prefix is parsed, `none` models NaN. -/
def parseFloatQ (s : List Char) : Option ℚ :=
  let neg : Bool := s.head? == some ('-')
  let t := if s.head? == some ('-') || s.head? == some ('+') then s.tail else s
  let intd := t.takeWhile Char.isDigit
  let rest := t.dropWhile Char.isDigit
  let mk : ℚ → ℚ := fun q => if neg then -q else q
  if intd = [] then
    if rest.head? = some ('.') then
      (fun fd => if fd = [] then none else some (mk (fracVal fd)))
        (rest.tail.takeWhile Char.isDigit)
    else none
  else
    if rest.head? = some ('.') then
      some (mk ((digitsVal intd : ℚ) + fracVal (rest.tail.takeWhile Char.isDigit)))
    else some (mk (digitsVal intd))

/-- The command letters `[GMTF]`. -/
def gmtf : List Char :=
  ['G', 'M', 'T', 'F']

/-- The anchored match `^([GMTF])(\d+(?:\.\d+)?)(.*)`: returns the
letter, the code group and the trailing group, or `none` when the
anchor fails. -/
def matchMain (command : List Char) : Option (Char × List Char × List Char) :=
  match command with
  | [] => none
  | c :: rest =>
    if gmtf.contains c then
      let ds := rest.takeWhile Char.isDigit
      if ds = [] then none
      else
        let r2 := rest.dropWhile Char.isDigit
        if r2.head? = some ('.') then
          let fs := r2.tail.takeWhile Char.isDigit
          if fs = [] then some (c, ds, r2)
          else some (c, ds ++ '.' :: fs, r2.tail.dropWhile Char.isDigit)
        else some (c, ds, r2)
    else none

/-- The global scan `matchAll(/([A-Z])([-\d.]+)/g)`: at the leftmost
uppercase letter followed by at least one `[-\d.]` character, capture
the letter and the maximal run, apply `parseFloat`, continue after the
run. -/
def scanParams : List Char → List (Char × Option ℚ)
  | [] => []
  | c :: rest =>
    if c.isUpper then
      let num := rest.takeWhile isNumChar
      if num = [] then scanParams rest
      else (c, parseFloatQ num) :: scanParams (rest.dropWhile isNumChar)
    else scanParams rest
termination_by l => l.length
decreasing_by
  · simp
  · have h := (List.dropWhile_sublist (l := rest) (p := isNumChar)).length_le
    simp only [List.length_cons]
    omega
  · simp

/-- Assignment `params[letter] = value` on a JavaScript object: an
existing key is updated in place, a new key is appended. -/
def insertParam (ps : List (Char × Option ℚ)) (k : Char) (v : Option ℚ) :
    List (Char × Option ℚ) :=
  if ps.any (fun q => q.1 == k) then
    ps.map (fun q => if q.1 == k then (k, v) else q)
  else ps ++ [(k, v)]

/-- The `params` object built by the parameter loop. -/
def buildParams (l : List (Char × Option ℚ)) : List (Char × Option ℚ) :=
  l.foldl (fun ps kv => insertParam ps kv.1 kv.2) []

/-- The `GCodeCommand` record produced by the parser (`code` is always
a parsed decimal because the code group is `\d+(\.\d+)?`). -/
structure GCodeCommand where
  type : Char
  code : ℚ
  params : List (Char × Option ℚ)
  comment : Option (List Char)
  lineNumber : ℕ
deriving DecidableEq, Repr

/-- `String.prototype.indexOf` for one character. -/
def jsIndexOf (l : List Char) (c : Char) : ℤ :=
  if l.contains c then (l.findIdx (fun x => x == c) : ℤ) else -1

/-- The inline-comment split (lines 75-81 of the source): when the
first `;` sits at a positive index, the text before it (trimmed) is the
command and the text after it (trimmed) is the comment. -/
def stripInlineComment (trimmed : List Char) : List Char × List Char :=
  let commentIndex := jsIndexOf trimmed (';')
  if 0 < commentIndex then
    (trimChars (trimmed.take commentIndex.toNat), trimChars (trimmed.drop (commentIndex.toNat + 1)))
  else (trimmed, [])

/-- `parseGCodeCommand`. -/
def parseGCodeCommand (line : List Char) (lineNumber : ℕ) : Option GCodeCommand :=
  let trimmed := trimChars line
  if trimmed = [] then none
  else if trimmed.head? = some (';') then none
  else
    let split := stripInlineComment trimmed
    match matchMain split.1 with
    | none => none
    | some (ty, codeStr, paramsStr) =>
        some { type := ty
               code := (parseFloatQ codeStr).getD 0
               params := buildParams (scanParams paramsStr)
               comment := if split.2 = [] then none else some split.2
               lineNumber := lineNumber }

/-! ### The command grammar, as an explicit shape

`SignedNum` and `GLineSpec` describe exactly the lines the claimed
grammar accepts: a `[GMTF]` letter, a decimal code, space-separated
`<LETTER><signed-number>` parameter pairs and an optional `;comment`.
`render` produces the concrete character list of such a line. -/

/-- A signed decimal number `-?digits(.digits)?`. -/
structure SignedNum where
  neg : Bool
  intPart : List Char
  fracPart : Option (List Char)

/-- The character form of a signed number. -/
def SignedNum.render (n : SignedNum) : List Char :=
  (if n.neg then ['-'] else []) ++ n.intPart
    ++ (match n.fracPart with | some f => '.' :: f | none => [])

/-- The rational value of a signed number. -/
def SignedNum.val (n : SignedNum) : ℚ :=
  let m : ℚ := (digitsVal n.intPart : ℚ) + fracVal (n.fracPart.getD [])
  if n.neg then -m else m

/-- Well-formedness of a signed number: non-empty digit strings. -/
def SignedNum.wf (n : SignedNum) : Prop :=
  n.intPart ≠ [] ∧ (∀ c ∈ n.intPart, c.isDigit = true) ∧
  (∀ f, n.fracPart = some f → f ≠ [] ∧ ∀ c ∈ f, c.isDigit = true)

/-- A line of the command grammar. -/
structure GLineSpec where
  ty : Char
  codeInt : List Char
  codeFrac : Option (List Char)
  params : List (Char × SignedNum)
  comment : Option (List Char)

/-- The concrete text of a grammar line: the type letter, the code, a
space before each parameter pair, and `;` before the comment. -/
def GLineSpec.render (g : GLineSpec) : List Char :=
  g.ty :: (g.codeInt
    ++ (match g.codeFrac with | some f => '.' :: f | none => [])
    ++ (g.params.map (fun p => ' ' :: p.1 :: p.2.render)).flatten
    ++ (match g.comment with | some m => ';' :: m | none => []))

/-- Well-formedness of a grammar line: a `[GMTF]` type letter, a
non-empty digit code (with non-empty fraction when present), uppercase
parameter letters with well-formed numbers and pairwise distinct
letters, and a non-empty comment free of edge whitespace. -/
def GLineSpec.wf (g : GLineSpec) : Prop :=
  gmtf.contains g.ty = true ∧
  g.codeInt ≠ [] ∧ (∀ c ∈ g.codeInt, c.isDigit = true) ∧
  (∀ f, g.codeFrac = some f → f ≠ [] ∧ ∀ c ∈ f, c.isDigit = true) ∧
  (∀ p ∈ g.params, (p : Char × SignedNum).1.isUpper = true ∧ p.2.wf) ∧
  (g.params.map Prod.fst).Nodup ∧
  (∀ m, g.comment = some m →
    m ≠ [] ∧ isWS (m.headD ('x')) = false ∧ isWS (m.getLastD ('x')) = false)

/-- The code group of a grammar line: `digits` or `digits.digits`. -/
def GLineSpec.codeR (g : GLineSpec) : List Char :=
  g.codeInt ++ (match g.codeFrac with | some f => '.' :: f | none => [])

/-- The rendered parameter section of a grammar line. -/
def GLineSpec.paramsFlat (g : GLineSpec) : List Char :=
  (g.params.map (fun p => ' ' :: p.1 :: p.2.render)).flatten

/-- The command part of a grammar line (everything before the `;`). -/
def GLineSpec.commandPart (g : GLineSpec) : List Char :=
  g.ty :: (g.codeR ++ g.paramsFlat)

/-- The rendered comment section (`;` plus text, or nothing). -/
def GLineSpec.commentR (g : GLineSpec) : List Char :=
  match g.comment with | some m => ';' :: m | none => []

/-! ## Auxiliary definitions used by the verification statements -/

/-- Closed-form restatement of the quality-score computation: every
deduction and the bonus apply exactly when their field is present and
truthy (nonzero) and meets the threshold, and the result is clamped to
`[0, 100]`. -/
def qualityScoreSpec (a : AnalysisResult) : ℚ :=
  let lh := a.profile.bind (·.layer_height)
  let idf := a.profile.bind (·.infill_density)
  let penaltyThick : ℚ := if numTruthyAnd lh (fun h => decide ((3/10 : ℚ) < h)) then 10 else 0
  let penaltyInfill : ℚ := if numTruthyAnd idf (fun d => decide (d < (10 : ℚ))) then 15 else 0
  let penaltySupport : ℚ := if supportDetected a then 5 else 0
  let penaltyBridge : ℚ := if bridgingDetected a then 10 else 0
  let bonus : ℚ := if numTruthyAnd lh
      (fun h => decide ((15/100 : ℚ) ≤ h) && decide (h ≤ (25/100 : ℚ))) then 5 else 0
  max 0 (min 100 (100 - penaltyThick - penaltyInfill - penaltySupport - penaltyBridge + bonus))

/-- The quality-score formula exactly as the specification words it:
minus 10 if `layer_height > 0.3`, minus 15 if `infill_density < 10`,
minus 5 for support, minus 10 for bridging, plus 5 if `layer_height ∈
[0.15, 0.25]`, clamped to `[0, 100]` — with no truthiness guard, so a
declared `infill_density = 0` takes the −15 deduction. -/
def claimQualityScore (a : AnalysisResult) : ℚ :=
  let lh := a.profile.bind (·.layer_height)
  let idf := a.profile.bind (·.infill_density)
  let penaltyThick : ℚ :=
    if (match lh with | some h => decide ((3/10 : ℚ) < h) | none => false) then 10 else 0
  let penaltyInfill : ℚ :=
    if (match idf with | some d => decide (d < (10 : ℚ)) | none => false) then 15 else 0
  let penaltySupport : ℚ := if supportDetected a then 5 else 0
  let penaltyBridge : ℚ := if bridgingDetected a then 10 else 0
  let bonus : ℚ :=
    if (match lh with
        | some h => decide ((15/100 : ℚ) ≤ h) && decide (h ≤ (25/100 : ℚ))
        | none => false) then 5 else 0
  max 0 (min 100 (100 - penaltyThick - penaltyInfill - penaltySupport - penaltyBridge + bonus))

/-- Whether an `Except` outcome of `compare` is a success. -/
def isOkB : Except String ComparisonResult → Bool
  | .ok _ => true
  | .error _ => false

/-- The progress currently stored for a job (0 when no record exists). -/
def recProgress (s : JobState) : ℕ :=
  ((s.record.map (fun r => r.progress)).getD 0)

/-- A geometry carrying only a time estimate. -/
def geomOnlyTime (t : ℚ) : GeometryAnalysis :=
  ⟨some t, none, none⟩

/-- A minimal analysis result with the given filepath, time estimate
and status. -/
def exTimed (nameStr : String) (t : ℚ) (st : AnalysisStatus) : AnalysisResult :=
  ⟨nameStr, nameStr, 0, none, some (geomOnlyTime t), [], [], st, none⟩

/-- Completed analysis with a 600 s time estimate (scenario C). -/
def exA600 : AnalysisResult :=
  exTimed ("a.gcode") 600 .complete

/-- Completed analysis with a 900 s time estimate (scenario C). -/
def exB900 : AnalysisResult :=
  exTimed ("b.gcode") 900 .complete

/-- Completed analysis with a zero time estimate. -/
def exZeroTime : AnalysisResult :=
  exTimed ("zero.gcode") 0 .complete

/-- Completed analysis with a 100 s time estimate. -/
def exHundredTime : AnalysisResult :=
  exTimed ("hundred.gcode") 100 .complete

/-- Non-terminal (status `processing`) analysis. -/
def exProcA : AnalysisResult :=
  exTimed ("p1.gcode") 600 .processing

/-- A second non-terminal analysis. -/
def exProcB : AnalysisResult :=
  exTimed ("p2.gcode") 900 .processing

/-- Analysis hitting all four quality deductions (score 60). -/
def exLowQuality : AnalysisResult :=
  ⟨"low", "low.gcode", 0,
   some { emptyProfile with layer_height := some (4/10 : ℚ), infill_density := some 5 },
   some ⟨none, none, some ⟨some true, some true⟩⟩, [], [], .complete, none⟩

/-- Analysis with no profile and no geometry (score 100). -/
def exPerfect : AnalysisResult :=
  ⟨"high", "high.gcode", 0, none, none, [], [], .complete, none⟩

/-- Analysis whose profile declares `infill_density = 0` and an optimal
layer height. -/
def exZeroInfill : AnalysisResult :=
  ⟨"zi", "zi.gcode", 0,
   some { emptyProfile with layer_height := some (2/10 : ℚ), infill_density := some 0 },
   none, [], [], .complete, none⟩

/-- Analysis with a 290 °C nozzle temperature (scenario F). -/
def exHot290 : AnalysisResult :=
  ⟨"hot", "hot.gcode", 0,
   some { emptyProfile with temperature_nozzle := some 290 },
   none, [], [], .complete, none⟩

/-- A speed-priority optimization profile with no constraints. -/
def exSpeedProfile : OptimizationProfile :=
  ⟨.speed, ⟨none, none, none⟩⟩

/-- Analysis whose profile declares `infill_density = 30`. -/
def exOverlapInfill : AnalysisResult :=
  ⟨"ov", "ov.gcode", 0,
   some { emptyProfile with infill_density := some 30 },
   none, [], [], .complete, none⟩

/-- A speed-priority profile with a truthy `maxMaterial` constraint, so
both the Speed and the Material rule blocks are evaluated. -/
def exSpeedMaterialProfile : OptimizationProfile :=
  ⟨.speed, ⟨none, none, some 1⟩⟩

/-- A concrete grammar line: `G1 X-12.5 Y4;move`. -/
def gEx : GLineSpec :=
  ⟨('G'), [('1')], none,
   [(('X'), ⟨true, ['1', '2'], some [('5')]⟩), (('Y'), ⟨false, [('4')], none⟩)],
   some ['m', 'o', 'v', 'e']⟩

/-! # Verification -/

/-! ## List minima, maxima and first indices -/

lemma foldl_min_mem : ∀ (xs : List ℚ) (x : ℚ), xs.foldl min x ∈ x :: xs
  | [], x => by simp
  | y :: ys, x => by
      have h := foldl_min_mem ys (min x y)
      simp only [List.foldl_cons]
      rcases List.mem_cons.mp h with h1 | h1
      · rcases min_choice x y with h2 | h2
        · exact List.mem_cons.mpr (Or.inl (h1.trans h2))
        · exact List.mem_cons.mpr (Or.inr (List.mem_cons.mpr (Or.inl (h1.trans h2))))
      · exact List.mem_cons.mpr (Or.inr (List.mem_cons.mpr (Or.inr h1)))

lemma foldl_min_le : ∀ (xs : List ℚ) (x : ℚ), ∀ y ∈ x :: xs, xs.foldl min x ≤ y
  | [], x => by
      intro y hy
      simp at hy
      simp [hy]
  | z :: zs, x => by
      intro y hy
      simp only [List.foldl_cons]
      rcases List.mem_cons.mp hy with h1 | h1
      · rw [h1]
        exact le_trans (foldl_min_le zs (min x z) (min x z) (List.mem_cons_self _ _))
          (min_le_left _ _)
      · rcases List.mem_cons.mp h1 with h2 | h2
        · rw [h2]
          exact le_trans (foldl_min_le zs (min x z) (min x z) (List.mem_cons_self _ _))
            (min_le_right _ _)
        · exact foldl_min_le zs (min x z) y (List.mem_cons_of_mem _ h2)

lemma foldl_max_mem : ∀ (xs : List ℚ) (x : ℚ), xs.foldl max x ∈ x :: xs
  | [], x => by simp
  | y :: ys, x => by
      have h := foldl_max_mem ys (max x y)
      simp only [List.foldl_cons]
      rcases List.mem_cons.mp h with h1 | h1
      · rcases max_choice x y with h2 | h2
        · exact List.mem_cons.mpr (Or.inl (h1.trans h2))
        · exact List.mem_cons.mpr (Or.inr (List.mem_cons.mpr (Or.inl (h1.trans h2))))
      · exact List.mem_cons.mpr (Or.inr (List.mem_cons.mpr (Or.inr h1)))

lemma le_foldl_max : ∀ (xs : List ℚ) (x : ℚ), ∀ y ∈ x :: xs, y ≤ xs.foldl max x
  | [], x => by
      intro y hy
      simp at hy
      simp [hy]
  | z :: zs, x => by
      intro y hy
      simp only [List.foldl_cons]
      rcases List.mem_cons.mp hy with h1 | h1
      · rw [h1]
        exact le_trans (le_max_left x z)
          (le_foldl_max zs (max x z) (max x z) (List.mem_cons_self _ _))
      · rcases List.mem_cons.mp h1 with h2 | h2
        · rw [h2]
          exact le_trans (le_max_right x z)
            (le_foldl_max zs (max x z) (max x z) (List.mem_cons_self _ _))
        · exact le_foldl_max zs (max x z) y (List.mem_cons_of_mem _ h2)

lemma listMin_mem {l : List ℚ} (h : l ≠ []) : listMin l ∈ l := by
  cases l with
  | nil => exact absurd rfl h
  | cons x xs => exact foldl_min_mem xs x

lemma listMin_le {l : List ℚ} : ∀ y ∈ l, listMin l ≤ y := by
  cases l with
  | nil => intro y hy; simp at hy
  | cons x xs => exact fun y hy => foldl_min_le xs x y hy

lemma listMax_mem {l : List ℚ} (h : l ≠ []) : listMax l ∈ l := by
  cases l with
  | nil => exact absurd rfl h
  | cons x xs => exact foldl_max_mem xs x

lemma le_listMax {l : List ℚ} : ∀ y ∈ l, y ≤ listMax l := by
  cases l with
  | nil => intro y hy; simp at hy
  | cons x xs => exact fun y hy => le_foldl_max xs x y hy

lemma listMin_le_listMax {l : List ℚ} (h : l ≠ []) : listMin l ≤ listMax l :=
  listMin_le (listMax l) (listMax_mem h)

lemma getElem?_ne_of_lt_indexOf {α : Type} [DecidableEq α] :
    ∀ (l : List α) (a : α) (j : ℕ), j < l.indexOf a → l[j]? ≠ some a
  | [], a, j => by simp [List.indexOf]
  | b :: t, a, j => by
      intro hj
      by_cases hba : b = a
      · rw [List.indexOf_cons_eq t hba] at hj
        omega
      · rw [List.indexOf_cons_ne t hba] at hj
        cases j with
        | zero => simpa using hba
        | succ j' =>
            have h := getElem?_ne_of_lt_indexOf t a j' (by omega)
            simpa using h

/-! ## Quality score lemmas -/

lemma calculateQualityScore_eq_spec (a : AnalysisResult) :
    calculateQualityScore a = qualityScoreSpec a := by
  unfold calculateQualityScore qualityScoreSpec
  dsimp only
  split_ifs <;> norm_num [min_def, max_def]

lemma quality_bounds (a : AnalysisResult) :
    60 ≤ calculateQualityScore a ∧ calculateQualityScore a ≤ 100 := by
  unfold calculateQualityScore
  dsimp only
  split_ifs <;> norm_num [min_def, max_def]

/-- C4 (amended): for every analysis the quality score equals 100 minus
10 / 15 / 5 / 10 deductions and plus the 5 bonus, where each
profile-based deduction or bonus applies only when its field is present
and nonzero (truthy) and meets its threshold; the result is clamped to
`[0, 100]`, and the score list of a quality comparison is the per-file
map of this function, hence independent of the comparison order. -/
theorem qualityScore_formula (a : AnalysisResult) :
    calculateQualityScore a = qualityScoreSpec a ∧
    (0 ≤ calculateQualityScore a ∧ calculateQualityScore a ≤ 100) ∧
    (∀ analyses : List AnalysisResult,
      (qualityScoreMetric analyses).values = analyses.map calculateQualityScore) ∧
    (∀ l₁ l₂ : List AnalysisResult, l₁.Perm l₂ →
      (l₁.map calculateQualityScore).Perm (l₂.map calculateQualityScore)) := by
  refine ⟨calculateQualityScore_eq_spec a, ⟨?_, (quality_bounds a).2⟩, fun _ => rfl,
    fun _ _ h => h.map _⟩
  exact le_trans (by norm_num) (quality_bounds a).1

/-- C4 witness: the formula and order-independence at concrete inputs. -/
theorem qualityScore_formula_witness :
    calculateQualityScore exZeroInfill = qualityScoreSpec exZeroInfill ∧
    ([exA600].map calculateQualityScore).Perm ([exA600].map calculateQualityScore) :=
  ⟨(qualityScore_formula exZeroInfill).1,
   (qualityScore_formula exZeroInfill).2.2.2 [exA600] [exA600] (List.Perm.refl _)⟩

/-- C4 counterexample: with a declared `infill_density = 0` (and layer
height 0.2) the claimed formula deducts 15 (and adds the bonus), giving
90, but the code's truthiness guard skips the deduction and returns
100. -/
theorem qualityScore_claim_counterexample :
    calculateQualityScore exZeroInfill = 100 ∧
    claimQualityScore exZeroInfill = 90 ∧
    (100 : ℚ) ≠ 90 := by
  refine ⟨?_, ?_, by norm_num⟩
  all_goals
    norm_num [calculateQualityScore, claimQualityScore, exZeroInfill, emptyProfile,
      numTruthyAnd, supportDetected, bridgingDetected, min_def, max_def]

/-- C10: an analysis whose layer height and infill density are absent
or zero and whose geometry reports neither support nor bridging scores
exactly 100 — missing or zero-valued settings incur no penalty. -/
theorem qualityScore_default_100 (a : AnalysisResult)
    (hlh : a.profile.bind (·.layer_height) = none ∨ a.profile.bind (·.layer_height) = some 0)
    (hidf : a.profile.bind (·.infill_density) = none ∨ a.profile.bind (·.infill_density) = some 0)
    (hsup : supportDetected a = false) (hbr : bridgingDetected a = false) :
    calculateQualityScore a = 100 := by
  unfold calculateQualityScore
  rcases hlh with h1 | h1 <;> rcases hidf with h2 | h2 <;>
    simp [h1, h2, hsup, hbr, numTruthyAnd]

/-- C10 witness: the profile-less analysis scores 100. -/
theorem qualityScore_default_100_witness :
    calculateQualityScore exPerfect = 100 :=
  qualityScore_default_100 exPerfect (Or.inl rfl) (Or.inl rfl) rfl rfl

/-! ## Comparison metrics (C1, C2) -/

lemma jsDiv_mul100_spec (a b : ℚ) (ha : 0 ≤ a) :
    (b ≠ 0 → (jsDiv a b).mul100 = .val (a / b * 100)) ∧
    (b = 0 → a ≠ 0 → (jsDiv a b).mul100 = .posInf) ∧
    (b = 0 → a = 0 → (jsDiv a b).mul100 = .nan) := by
  refine ⟨fun hb => ?_, fun hb hA => ?_, fun hb hA => ?_⟩
  · simp only [jsDiv, if_neg hb]
    rfl
  · simp only [jsDiv, if_pos hb]
    rw [if_neg hA, if_pos (lt_of_le_of_ne ha (Ne.symm hA))]
    rfl
  · simp only [jsDiv, if_pos hb, if_pos hA]
    rfl

lemma argmin_first (values : List ℚ) (hne : values ≠ []) :
    values.indexOf (listMin values) < values.length ∧
    values[values.indexOf (listMin values)]? = some (listMin values) ∧
    ∀ j < values.indexOf (listMin values), values[j]? ≠ some (listMin values) := by
  have hmem := listMin_mem hne
  have hlt := List.indexOf_lt_length.mpr hmem
  refine ⟨hlt, ?_, fun j hj => getElem?_ne_of_lt_indexOf values (listMin values) j hj⟩
  rw [List.getElem?_eq_getElem hlt]
  exact congrArg some (List.getElem_indexOf hlt)

lemma argmax_first (values : List ℚ) (hne : values ≠ []) :
    values.indexOf (listMax values) < values.length ∧
    values[values.indexOf (listMax values)]? = some (listMax values) ∧
    ∀ j < values.indexOf (listMax values), values[j]? ≠ some (listMax values) := by
  have hmem := listMax_mem hne
  have hlt := List.indexOf_lt_length.mpr hmem
  refine ⟨hlt, ?_, fun j hj => getElem?_ne_of_lt_indexOf values (listMax values) j hj⟩
  rw [List.getElem?_eq_getElem hlt]
  exact congrArg some (List.getElem_indexOf hlt)

/-- C1 (amended): for a comparison over at least two analyses that
requests `printTime` or `material`, the metric block is produced, its
values are the per-analysis readings, its winner is the first index
attaining the minimum value, and its difference is
`(max − min) / min × 100` whenever the minimum is nonzero; when the
minimum is 0 the JavaScript division yields Infinity (or NaN when the
maximum is also 0) rather than the claimed 0. -/
theorem lower_wins_metrics (analyses : List AnalysisResult) (metrics : List String)
    (h2 : 2 ≤ analyses.length) :
    (metrics.contains ("printTime") = true →
      (generateComparison analyses metrics).metrics.print_time = some (printTimeMetric analyses)) ∧
    (metrics.contains ("material") = true →
      (generateComparison analyses metrics).metrics.material_usage
        = some (materialUsageMetric analyses)) ∧
    ((printTimeMetric analyses).values = analyses.map timeValue) ∧
    ((materialUsageMetric analyses).values = analyses.map materialValue) ∧
    ((printTimeMetric analyses).winner < (analyses.map timeValue).length ∧
      (analyses.map timeValue)[(printTimeMetric analyses).winner]?
        = some (listMin (analyses.map timeValue)) ∧
      ∀ j < (printTimeMetric analyses).winner,
        (analyses.map timeValue)[j]? ≠ some (listMin (analyses.map timeValue))) ∧
    ((materialUsageMetric analyses).winner < (analyses.map materialValue).length ∧
      (analyses.map materialValue)[(materialUsageMetric analyses).winner]?
        = some (listMin (analyses.map materialValue)) ∧
      ∀ j < (materialUsageMetric analyses).winner,
        (analyses.map materialValue)[j]? ≠ some (listMin (analyses.map materialValue))) ∧
    ((listMin (analyses.map timeValue) ≠ 0 →
      (printTimeMetric analyses).difference
        = .val ((listMax (analyses.map timeValue) - listMin (analyses.map timeValue))
            / listMin (analyses.map timeValue) * 100)) ∧
     (listMin (analyses.map timeValue) = 0 → listMax (analyses.map timeValue) ≠ 0 →
      (printTimeMetric analyses).difference = .posInf) ∧
     (listMin (analyses.map timeValue) = 0 → listMax (analyses.map timeValue) = 0 →
      (printTimeMetric analyses).difference = .nan)) ∧
    ((listMin (analyses.map materialValue) ≠ 0 →
      (materialUsageMetric analyses).difference
        = .val ((listMax (analyses.map materialValue) - listMin (analyses.map materialValue))
            / listMin (analyses.map materialValue) * 100)) ∧
     (listMin (analyses.map materialValue) = 0 → listMax (analyses.map materialValue) ≠ 0 →
      (materialUsageMetric analyses).difference = .posInf) ∧
     (listMin (analyses.map materialValue) = 0 → listMax (analyses.map materialValue) = 0 →
      (materialUsageMetric analyses).difference = .nan)) := by
  have hne : ∀ f : AnalysisResult → ℚ, analyses.map f ≠ [] := by
    intro f h
    rw [List.map_eq_nil_iff] at h
    rw [h] at h2
    simp at h2
  have hlen : ∀ f : AnalysisResult → ℚ, 1 < (analyses.map f).length := by
    intro f
    simp
    omega
  have hdiffT := jsDiv_mul100_spec
    (listMax (analyses.map timeValue) - listMin (analyses.map timeValue))
    (listMin (analyses.map timeValue))
    (sub_nonneg.mpr (listMin_le_listMax (hne timeValue)))
  have hdiffM := jsDiv_mul100_spec
    (listMax (analyses.map materialValue) - listMin (analyses.map materialValue))
    (listMin (analyses.map materialValue))
    (sub_nonneg.mpr (listMin_le_listMax (hne materialValue)))
  have hdT : (printTimeMetric analyses).difference
      = (jsDiv (listMax (analyses.map timeValue) - listMin (analyses.map timeValue))
          (listMin (analyses.map timeValue))).mul100 := by
    simp only [printTimeMetric]
    rw [if_pos (hlen timeValue)]
  have hdM : (materialUsageMetric analyses).difference
      = (jsDiv (listMax (analyses.map materialValue) - listMin (analyses.map materialValue))
          (listMin (analyses.map materialValue))).mul100 := by
    simp only [materialUsageMetric]
    rw [if_pos (hlen materialValue)]
  refine ⟨fun h => ?_, fun h => ?_, rfl, rfl,
    argmin_first (analyses.map timeValue) (hne timeValue),
    argmin_first (analyses.map materialValue) (hne materialValue), ?_, ?_⟩
  · simp [generateComparison]
    simpa using h
  · simp [generateComparison]
    simpa using h
  · rw [hdT]
    refine ⟨hdiffT.1, fun hb hA => hdiffT.2.1 hb ?_, fun hb hA => hdiffT.2.2 hb ?_⟩
    · rw [hb, sub_zero]
      exact hA
    · rw [hb, sub_zero]
      exact hA
  · rw [hdM]
    refine ⟨hdiffM.1, fun hb hA => hdiffM.2.1 hb ?_, fun hb hA => hdiffM.2.2 hb ?_⟩
    · rw [hb, sub_zero]
      exact hA
    · rw [hb, sub_zero]
      exact hA

/-- C1 witness: scenario C — comparing 600 s against 900 s yields
winner 0 and difference 50 %. -/
theorem lower_wins_metrics_witness :
    (generateComparison [exA600, exB900] ([("printTime")])).metrics.print_time
      = some (printTimeMetric [exA600, exB900]) ∧
    (printTimeMetric [exA600, exB900]).winner = 0 ∧
    (printTimeMetric [exA600, exB900]).difference = JSNum.val 50 := by
  have h := lower_wins_metrics [exA600, exB900] ([("printTime")]) (by norm_num)
  refine ⟨h.1 (by decide), ?_, ?_⟩
  · norm_num [printTimeMetric, timeValue, exA600, exB900, exTimed, geomOnlyTime,
      listMin, List.indexOf_cons, min_def]
  · have hd := h.2.2.2.2.2.2.1.1 (by
      norm_num [timeValue, exA600, exB900, exTimed, geomOnlyTime, listMin, min_def])
    rw [hd]
    norm_num [timeValue, exA600, exB900, exTimed, geomOnlyTime, listMin, listMax,
      min_def, max_def]

/-- C1 counterexample: with compared print times 0 and 100 the minimum
is 0 and the code's difference is `Infinity`, not the claimed 0. -/
theorem lower_wins_claim_counterexample :
    (generateComparison [exZeroTime, exHundredTime] ([("printTime")])).metrics.print_time
      = some (printTimeMetric [exZeroTime, exHundredTime]) ∧
    (printTimeMetric [exZeroTime, exHundredTime]).difference = JSNum.posInf ∧
    JSNum.posInf ≠ JSNum.val 0 := by
  refine ⟨?_, ?_, by simp⟩
  · simp [generateComparison]
  · norm_num [printTimeMetric, timeValue, exZeroTime, exHundredTime, exTimed, geomOnlyTime,
      listMin, listMax, jsDiv, JSNum.mul100, min_def, max_def]

/-- C2 (amended): for a comparison over at least two analyses that
requests the quality metric, the winner is the first index attaining
the maximum score and the difference is `(max − min) / max × 100` — the
denominator is the maximum of the compared scores, not the minimum. -/
theorem quality_metric_spec (analyses : List AnalysisResult) (metrics : List String)
    (h2 : 2 ≤ analyses.length) :
    (metrics.contains ("quality") = true →
      (generateComparison analyses metrics).metrics.quality_score
        = some (qualityScoreMetric analyses)) ∧
    ((qualityScoreMetric analyses).values = analyses.map calculateQualityScore) ∧
    ((qualityScoreMetric analyses).winner < (analyses.map calculateQualityScore).length ∧
      (analyses.map calculateQualityScore)[(qualityScoreMetric analyses).winner]?
        = some (listMax (analyses.map calculateQualityScore)) ∧
      ∀ j < (qualityScoreMetric analyses).winner,
        (analyses.map calculateQualityScore)[j]?
          ≠ some (listMax (analyses.map calculateQualityScore))) ∧
    ((qualityScoreMetric analyses).difference
      = .val ((listMax (analyses.map calculateQualityScore)
          - listMin (analyses.map calculateQualityScore))
          / listMax (analyses.map calculateQualityScore) * 100)) := by
  have hne : analyses.map calculateQualityScore ≠ [] := by
    intro h
    rw [List.map_eq_nil_iff] at h
    rw [h] at h2
    simp at h2
  have hlen : 1 < (analyses.map calculateQualityScore).length := by
    simp
    omega
  have hmaxpos : listMax (analyses.map calculateQualityScore) ≠ 0 := by
    have hmem := listMax_mem hne
    rcases List.mem_map.mp hmem with ⟨a, _, ha⟩
    have h60 := (quality_bounds a).1
    rw [ha] at h60
    intro h0
    rw [h0] at h60
    norm_num at h60
  have hd : (qualityScoreMetric analyses).difference
      = (jsDiv (listMax (analyses.map calculateQualityScore)
          - listMin (analyses.map calculateQualityScore))
          (listMax (analyses.map calculateQualityScore))).mul100 := by
    simp only [qualityScoreMetric]
    rw [if_pos hlen]
  refine ⟨fun h => ?_, rfl, argmax_first (analyses.map calculateQualityScore) hne, ?_⟩
  · simp [generateComparison]
    simpa using h
  · rw [hd]
    exact (jsDiv_mul100_spec _ _ (sub_nonneg.mpr (listMin_le_listMax hne))).1 hmaxpos

/-- C2 witness: the amended difference convention at scores 60 and
100: `(100 − 60) / 100 × 100 = 40`. -/
theorem quality_metric_spec_witness :
    (generateComparison [exLowQuality, exPerfect] ([("quality")])).metrics.quality_score
      = some (qualityScoreMetric [exLowQuality, exPerfect]) ∧
    (qualityScoreMetric [exLowQuality, exPerfect]).difference
      = .val ((listMax ([exLowQuality, exPerfect].map calculateQualityScore)
          - listMin ([exLowQuality, exPerfect].map calculateQualityScore))
          / listMax ([exLowQuality, exPerfect].map calculateQualityScore) * 100) :=
  ⟨(quality_metric_spec [exLowQuality, exPerfect] ([("quality")]) (by norm_num)).1 (by decide),
   (quality_metric_spec [exLowQuality, exPerfect] ([("quality")]) (by norm_num)).2.2.2⟩

/-- C2 counterexample: at scores 60 and 100 the code reports a
difference of 40 % (denominator max = 100), while the claimed
min-denominator convention would give `(100 − 60) / 60 × 100 = 200/3`. -/
theorem quality_diff_claim_counterexample :
    (qualityScoreMetric [exLowQuality, exPerfect]).values = [60, 100] ∧
    (qualityScoreMetric [exLowQuality, exPerfect]).winner = 1 ∧
    (qualityScoreMetric [exLowQuality, exPerfect]).difference = JSNum.val 40 ∧
    JSNum.val 40 ≠ JSNum.val ((100 - 60) / 60 * 100) := by
  refine ⟨?_, ?_, ?_, by norm_num⟩ <;>
    norm_num [qualityScoreMetric, calculateQualityScore, exLowQuality, exPerfect, emptyProfile,
      numTruthyAnd, supportDetected, bridgingDetected, listMin, listMax, jsDiv, JSNum.mul100,
      List.indexOf_cons, min_def, max_def]

/-! ## Comparison input validation (C3) -/

lemma collectAnalyses_error_of_none :
    ∀ (l : List (String × Option AnalysisResult))
      (fp : String), (fp, (none : Option AnalysisResult)) ∈ l →
      ∀ analyses, compare.collectAnalyses l ≠ .ok analyses
  | [], fp, h => by simp at h
  | (fp0, none) :: rest, fp, h => by
      intro analyses
      simp [compare.collectAnalyses]
  | (fp0, some a) :: rest, fp, h => by
      intro analyses hok
      have hmem : (fp, (none : Option AnalysisResult)) ∈ rest := by
        rcases List.mem_cons.mp h with h1 | h1
        · exact absurd (congrArg Prod.snd h1).symm (by simp)
        · exact h1
      simp only [compare.collectAnalyses] at hok
      rcases hrest : compare.collectAnalyses rest with e | l'
      · rw [hrest] at hok
        simp at hok
      · exact collectAnalyses_error_of_none rest fp hmem l' hrest

lemma collectAnalyses_ok_all_some :
    ∀ (l : List (String × Option AnalysisResult)) (analyses : List AnalysisResult),
      compare.collectAnalyses l = .ok analyses →
      ∀ p ∈ l, (p : String × Option AnalysisResult).2 ≠ none
  | [], analyses, _ => by simp
  | (fp0, none) :: rest, analyses, hok => by
      simp [compare.collectAnalyses] at hok
  | (fp0, some a) :: rest, analyses, hok => by
      intro p hp
      rcases List.mem_cons.mp hp with h1 | h1
      · rw [h1]
        simp
      · simp only [compare.collectAnalyses] at hok
        rcases hrest : compare.collectAnalyses rest with e | l'
        · rw [hrest] at hok
          simp at hok
        · exact collectAnalyses_ok_all_some rest l' hrest p h1

/-- C3 (amended): fewer than two file inputs (in particular exactly
one) are rejected with the insufficient-input error before anything is
compared; a failed analysis of any listed file aborts the comparison
with an error; and a successful `ComparisonResult` arises only from at
least two inputs all of which analyzed successfully — but the inputs'
`status` field is never checked: results are compared regardless of
their status. -/
theorem compare_input_validation :
    (∀ (outcomes : List (String × Option AnalysisResult)) (metrics : List String),
      outcomes.length < 2 →
      compare outcomes metrics = .error ("At least 2 files are required for comparison")) ∧
    (∀ (fp : String) (r : Option AnalysisResult) (metrics : List String),
      compare [(fp, r)] metrics = .error ("At least 2 files are required for comparison")) ∧
    (∀ (outcomes : List (String × Option AnalysisResult)) (metrics : List String)
      (fp : String), (fp, (none : Option AnalysisResult)) ∈ outcomes →
      isOkB (compare outcomes metrics) = false) ∧
    (∀ (outcomes : List (String × Option AnalysisResult)) (metrics : List String)
      (result : ComparisonResult), compare outcomes metrics = .ok result →
      2 ≤ outcomes.length ∧
      ∀ p ∈ outcomes, (p : String × Option AnalysisResult).2 ≠ none) := by
  have herr : ∀ (outcomes : List (String × Option AnalysisResult)) (metrics : List String),
      outcomes.length < 2 →
      compare outcomes metrics = .error ("At least 2 files are required for comparison") := by
    intro outcomes metrics h
    simp only [compare]
    rw [if_pos h]
  refine ⟨herr, fun fp r metrics => herr [(fp, r)] metrics (by simp), ?_, ?_⟩
  · intro outcomes metrics fp hmem
    by_cases hlen : outcomes.length < 2
    · rw [herr outcomes metrics hlen]
      rfl
    · simp only [compare]
      rw [if_neg hlen]
      rcases hc : compare.collectAnalyses outcomes with e | l'
      · rfl
      · exact absurd hc (collectAnalyses_error_of_none outcomes fp hmem l')
  · intro outcomes metrics result hok
    by_cases hlen : outcomes.length < 2
    · rw [herr outcomes metrics hlen] at hok
      simp at hok
    · refine ⟨by omega, ?_⟩
      simp only [compare] at hok
      rw [if_neg hlen] at hok
      rcases hc : compare.collectAnalyses outcomes with e | l'
      · rw [hc] at hok
        simp at hok
      · exact collectAnalyses_ok_all_some outcomes l' hc

/-- C3 witness: scenario D — exactly one completed result is rejected
with the insufficient-input error, and a failed analysis in a two-file
request yields no comparison. -/
theorem compare_input_validation_witness :
    compare [(("one.gcode"), some exA600)] ([("printTime")])
      = .error ("At least 2 files are required for comparison") ∧
    isOkB (compare [(("a"), some exA600), (("b"), (none : Option AnalysisResult))]
      ([("printTime")])) = false :=
  ⟨compare_input_validation.2.1 ("one.gcode") (some exA600) ([("printTime")]),
   compare_input_validation.2.2.1 [(("a"), some exA600), (("b"), none)] ([("printTime")])
     ("b") (by simp)⟩

/-- C3 counterexample: two results whose status is `processing` (not
terminal) are accepted and a full comparison is produced — no
precondition error is raised on non-terminal inputs. -/
theorem compare_no_status_check_counterexample :
    exProcA.status = .processing ∧ exProcB.status = .processing ∧
    isOkB (compare [(("p1.gcode"), some exProcA), (("p2.gcode"), some exProcB)]
      ([("printTime")])) = true :=
  ⟨rfl, rfl, rfl⟩

/-! ## Suggestion ranking (C6) -/

lemma impactWeight_bounds (i : Impact) : 1 ≤ impactWeight i ∧ impactWeight i ≤ 3 := by
  cases i <;> simp [impactWeight]

lemma insertRanked_perm (p : OptPriority) (x : OptimizationSuggestion) :
    ∀ l, (insertRanked p x l).Perm (x :: l)
  | [] => List.Perm.refl _
  | y :: ys => by
      simp only [insertRanked]
      split_ifs with h
      · exact List.Perm.refl _
      · exact ((insertRanked_perm p x ys).cons y).trans (List.Perm.swap x y ys)

lemma sortRanked_perm (p : OptPriority) : ∀ l, (sortRanked p l).Perm l
  | [] => List.Perm.refl _
  | x :: xs => (insertRanked_perm p x (sortRanked p xs)).trans ((sortRanked_perm p xs).cons x)

lemma insertRanked_pairwise (p : OptPriority) (x : OptimizationSuggestion) :
    ∀ l, List.Pairwise (fun a b => rankVal p b ≤ rankVal p a) l →
      List.Pairwise (fun a b => rankVal p b ≤ rankVal p a) (insertRanked p x l)
  | [], _ => by simp [insertRanked]
  | y :: ys, h => by
      rcases List.pairwise_cons.mp h with ⟨hy, hys⟩
      simp only [insertRanked]
      split_ifs with hle
      · refine List.pairwise_cons.mpr ⟨?_, h⟩
        intro z hz
        rcases List.mem_cons.mp hz with h1 | h1
        · rw [h1]
          exact hle
        · exact le_trans (hy z h1) hle
      · refine List.pairwise_cons.mpr ⟨?_, insertRanked_pairwise p x ys hys⟩
        intro z hz
        have hz' : z ∈ x :: ys := (insertRanked_perm p x ys).mem_iff.mp hz
        rcases List.mem_cons.mp hz' with h1 | h1
        · rw [h1]
          omega
        · exact hy z h1

lemma sortRanked_sorted (p : OptPriority) :
    ∀ l, List.Pairwise (fun a b => rankVal p b ≤ rankVal p a) (sortRanked p l)
  | [] => List.Pairwise.nil
  | x :: xs => insertRanked_pairwise p x (sortRanked p xs) (sortRanked_sorted p xs)

lemma insertRanked_filter (p : OptPriority) (x : OptimizationSuggestion) (k : ℕ) :
    ∀ l, (insertRanked p x l).filter (fun s => rankVal p s == k)
      = if rankVal p x = k then x :: l.filter (fun s => rankVal p s == k)
        else l.filter (fun s => rankVal p s == k)
  | [] => by
      by_cases hk : rankVal p x = k <;> simp [insertRanked, List.filter_cons, hk]
  | y :: ys => by
      by_cases hk : rankVal p x = k
      · rw [if_pos hk]
        by_cases hle : rankVal p y ≤ rankVal p x
        · simp only [insertRanked, if_pos hle]
          simp [List.filter_cons, hk]
        · have hyk : rankVal p y ≠ k := by omega
          simp only [insertRanked, if_neg hle]
          rw [List.filter_cons, List.filter_cons, insertRanked_filter p x k ys, if_pos hk]
          simp [hyk]
      · rw [if_neg hk]
        by_cases hle : rankVal p y ≤ rankVal p x
        · simp only [insertRanked, if_pos hle]
          simp [List.filter_cons, hk]
        · simp only [insertRanked, if_neg hle]
          rw [List.filter_cons, List.filter_cons, insertRanked_filter p x k ys, if_neg hk]

lemma sortRanked_filter (p : OptPriority) (k : ℕ) :
    ∀ l, (sortRanked p l).filter (fun s => rankVal p s == k)
      = l.filter (fun s => rankVal p s == k)
  | [] => rfl
  | x :: xs => by
      simp only [sortRanked]
      rw [insertRanked_filter]
      by_cases hk : rankVal p x = k
      · rw [if_pos hk, sortRanked_filter p k xs, List.filter_cons]
        simp [hk]
      · rw [if_neg hk, sortRanked_filter p k xs, List.filter_cons]
        simp [hk]

/-- C6: `rankSuggestions` returns a permutation of its input in which
every suggestion whose category matches the requested priority precedes
every suggestion whose category does not; within each of the two groups
the impact weights (High 3 > Medium 2 > Low 1) are non-increasing; and
the sort is stable: for every rank key, the suggestions having that key
appear in their original input order. -/
theorem rank_suggestions_spec (suggestions : List OptimizationSuggestion)
    (profile : OptimizationProfile) :
    (rankSuggestions suggestions profile).Perm suggestions ∧
    List.Pairwise (fun a b =>
      (catMatches b.category profile.priority = true →
        catMatches a.category profile.priority = true) ∧
      (catMatches a.category profile.priority = catMatches b.category profile.priority →
        impactWeight b.impact ≤ impactWeight a.impact))
      (rankSuggestions suggestions profile) ∧
    (∀ k : ℕ, (rankSuggestions suggestions profile).filter
        (fun s => rankVal profile.priority s == k)
      = suggestions.filter (fun s => rankVal profile.priority s == k)) := by
  refine ⟨sortRanked_perm _ _, ?_, fun k => sortRanked_filter _ k _⟩
  refine (sortRanked_sorted profile.priority suggestions).imp ?_
  intro a b hle
  constructor
  · intro hb
    by_contra ha
    have ha' : catMatches a.category profile.priority = false := by
      cases hca : catMatches a.category profile.priority
      · rfl
      · exact absurd hca ha
    simp only [rankVal, hb, ha', Bool.false_eq_true, if_true, if_false] at hle
    have h1 := (impactWeight_bounds a.impact).2
    have h2 := (impactWeight_bounds b.impact).1
    omega
  · intro hab
    rw [rankVal, rankVal, hab] at hle
    cases hc : catMatches b.category profile.priority <;> rw [hc] at hle <;>
      simp only [if_true, if_false, Bool.false_eq_true, if_neg, if_pos] at hle <;> omega

/-! ## Duplicate-freedom of suggestions (C7) -/

lemma opt_single_sublist {α : Type} (b : Bool) (x : α) :
    List.Sublist (if b then [x] else []) [x] := by
  cases b
  · simp
  · simp

lemma optCons_sublist {α : Type} (b : Bool) (x : α) {l L : List α} (h : List.Sublist l L) :
    List.Sublist ((if b then [x] else []) ++ l) (x :: L) := by
  cases b
  · simpa using h.cons x
  · simpa using h.cons₂ x

lemma optBlock_sublist {α : Type} (b : Bool) {l L r R : List α}
    (h1 : List.Sublist l L) (h2 : List.Sublist r R) :
    List.Sublist ((if b then l else []) ++ r) (L ++ R) := by
  cases b
  · simpa using h2.trans (List.sublist_append_right L R)
  · simpa using h1.append h2

lemma speed_keys_sublist (a : AnalysisResult) :
    List.Sublist ((generateSpeedOptimizations a).map (fun s => (s.category, s.title)))
      [(Category.speed, "Increase Layer Height"), (Category.speed, "Reduce Infill Density"),
          (Category.speed, "Increase Print Speed"), (Category.speed, "Optimize Support Settings")] := by
  simp only [generateSpeedOptimizations, List.map_append,
    apply_ite (List.map (fun s : OptimizationSuggestion => (s.category, s.title))), List.map_cons,
    List.map_nil]
  exact optCons_sublist _ _ (optCons_sublist _ _ (optCons_sublist _ _ (opt_single_sublist _ _)))

lemma quality_keys_sublist (a : AnalysisResult) :
    List.Sublist ((generateQualityOptimizations a).map (fun s => (s.category, s.title)))
      [(Category.quality, "Reduce Layer Height"), (Category.quality, "Reduce Print Speed"),
          (Category.quality, "Increase Wall Count"), (Category.quality, "Optimize Temperature")] := by
  simp only [generateQualityOptimizations, List.map_append,
    apply_ite (List.map (fun s : OptimizationSuggestion => (s.category, s.title))), List.map_cons,
    List.map_nil]
  exact optCons_sublist _ _ (optCons_sublist _ _ (optCons_sublist _ _ (opt_single_sublist _ _)))

lemma material_keys_sublist (a : AnalysisResult) :
    List.Sublist ((generateMaterialOptimizations a).map (fun s => (s.category, s.title)))
      [(Category.material, "Reduce Infill Density"), (Category.material, "Optimize Wall Thickness"),
          (Category.material, "Minimize Support Material"), (Category.material, "Consider Hollow Design")] := by
  simp only [generateMaterialOptimizations, List.map_append,
    apply_ite (List.map (fun s : OptimizationSuggestion => (s.category, s.title))), List.map_cons,
    List.map_nil]
  exact optCons_sublist _ _ (optCons_sublist _ _ (optCons_sublist _ _ (opt_single_sublist _ _)))

lemma safety_keys_sublist (a : AnalysisResult) :
    List.Sublist ((generateSafetyOptimizations a).map (fun s => (s.category, s.title)))
      [(Category.safety, "High Temperature Warning"),
          (Category.safety, "High Bed Temperature Warning"),
          (Category.safety, "Long Print Duration Warning")] := by
  simp only [generateSafetyOptimizations, List.map_append,
    apply_ite (List.map (fun s : OptimizationSuggestion => (s.category, s.title))), List.map_cons,
    List.map_nil]
  exact optCons_sublist _ _ (optCons_sublist _ _ (opt_single_sublist _ _))

lemma collect_keys_sublist (a : AnalysisResult) (p : OptimizationProfile) :
    List.Sublist ((collectOptimizations a p).map (fun s => (s.category, s.title)))
      [(Category.speed, "Increase Layer Height"), (Category.speed, "Reduce Infill Density"),
          (Category.speed, "Increase Print Speed"), (Category.speed, "Optimize Support Settings"),
          (Category.quality, "Reduce Layer Height"), (Category.quality, "Reduce Print Speed"),
          (Category.quality, "Increase Wall Count"), (Category.quality, "Optimize Temperature"),
          (Category.material, "Reduce Infill Density"), (Category.material, "Optimize Wall Thickness"),
          (Category.material, "Minimize Support Material"), (Category.material, "Consider Hollow Design"),
          (Category.safety, "High Temperature Warning"),
          (Category.safety, "High Bed Temperature Warning"),
          (Category.safety, "Long Print Duration Warning")] := by
  simp only [collectOptimizations, List.map_append,
    apply_ite (List.map (fun s : OptimizationSuggestion => (s.category, s.title)))]
  have h := optBlock_sublist (b := decide (p.priority = .speed) || !(numTruthy p.constraints.maxPrintTime))
    (speed_keys_sublist a)
    (optBlock_sublist (b := decide (p.priority = .quality) || numTruthy p.constraints.minQuality)
      (quality_keys_sublist a)
      (optBlock_sublist (b := decide (p.priority = .material) || numTruthy p.constraints.maxMaterial)
        (material_keys_sublist a) (safety_keys_sublist a)))
  simpa using h

/-- C7 (amended): a single call to `generateOptimizations` returns a
list with no duplicate suggestions — because every rule emits a record
with a distinct (category, title) pair, not because the rule predicates
are mutually exclusive: the Speed and Material infill rules both fire
on the same analysis when `infill_density > 25`. -/
theorem optimization_suggestions_nodup (analysis : AnalysisResult)
    (profile : OptimizationProfile) :
    (generateOptimizations analysis profile).Nodup := by
  have hmaster : ([(Category.speed, "Increase Layer Height"), (Category.speed, "Reduce Infill Density"),
      (Category.speed, "Increase Print Speed"), (Category.speed, "Optimize Support Settings"),
      (Category.quality, "Reduce Layer Height"), (Category.quality, "Reduce Print Speed"),
      (Category.quality, "Increase Wall Count"), (Category.quality, "Optimize Temperature"),
      (Category.material, "Reduce Infill Density"), (Category.material, "Optimize Wall Thickness"),
      (Category.material, "Minimize Support Material"), (Category.material, "Consider Hollow Design"),
      (Category.safety, "High Temperature Warning"),
      (Category.safety, "High Bed Temperature Warning"),
      (Category.safety, "Long Print Duration Warning")] :
        List (Category × String)).Nodup := by decide
  have hkeys : ((collectOptimizations analysis profile).map
      (fun s => (s.category, s.title))).Nodup :=
    hmaster.sublist (collect_keys_sublist analysis profile)
  have hcollect : (collectOptimizations analysis profile).Nodup :=
    hkeys.of_map _
  exact ((sortRanked_perm profile.priority (collectOptimizations analysis profile)).nodup_iff).mpr
    hcollect

/-- C7 counterexample: on an analysis with `infill_density = 30` both
the Speed and the Material infill-reduction rules fire; with a
speed-priority profile carrying a truthy `maxMaterial` constraint, one
call emits both suggestions — the rule predicates are not mutually
exclusive. -/
theorem rule_overlap_counterexample :
    ((generateSpeedOptimizations exOverlapInfill).countP
      (fun s => s.title == "Reduce Infill Density")) = 1 ∧
    ((generateMaterialOptimizations exOverlapInfill).countP
      (fun s => s.title == "Reduce Infill Density")) = 1 ∧
    ((generateOptimizations exOverlapInfill exSpeedMaterialProfile).countP
      (fun s => s.title == "Reduce Infill Density")) = 2 := by
  refine ⟨rfl, rfl, ?_⟩
  decide

/-! ## Safety evaluation (C5) -/

/-- C5: safety suggestions are generated on every call regardless of
the requested priority (every element of the Safety block is in the
returned list); in particular, for a profile declaring a 290 °C nozzle
temperature the returned list contains a Safety suggestion with impact
High, and `analyzeForIssues` applies a −20 deduction for that
temperature, leaving its score at most 80. -/
theorem safety_always_included (analysis : AnalysisResult) (profile : OptimizationProfile) :
    (∀ s ∈ generateSafetyOptimizations analysis, s ∈ generateOptimizations analysis profile) ∧
    (∀ p, analysis.profile = some p → p.temperature_nozzle = some 290 →
      (∃ s ∈ generateOptimizations analysis profile,
        s.category = Category.safety ∧ s.impact = Impact.high) ∧
      (analyzeForIssues analysis).score
        = max 0 (100 - (if bridgingDetected analysis then 10 else 0)
            - (if supportDetected analysis then 5 else 0) - 20
            - (if numTruthyAnd (analysis.profile.bind (·.layer_height))
                  (fun h => decide (h < (1/10 : ℚ))) then 15 else 0)) ∧
      (analyzeForIssues analysis).score ≤ 80) := by
  have hmem : ∀ s ∈ generateSafetyOptimizations analysis,
      s ∈ generateOptimizations analysis profile := by
    intro s hs
    have hc : s ∈ collectOptimizations analysis profile := by
      simp only [collectOptimizations]
      exact List.mem_append_right _ (List.mem_append_right _ (List.mem_append_right _ hs))
    exact ((sortRanked_perm profile.priority _).mem_iff).mpr hc
  refine ⟨hmem, ?_⟩
  intro p hp htemp
  have htn : analysis.profile.bind (·.temperature_nozzle) = some 290 := by
    rw [hp]
    simpa using htemp
  have hcond : numTruthyAnd (analysis.profile.bind (·.temperature_nozzle))
      (fun t => decide ((250 : ℚ) < t)) = true := by
    rw [htn]
    norm_num [numTruthyAnd]
  have hhigh : numTruthyAnd (analysis.profile.bind (·.temperature_nozzle))
      (fun t => decide ((280 : ℚ) < t)) = true := by
    rw [htn]
    norm_num [numTruthyAnd]
  have hscore : (analyzeForIssues analysis).score
      = max 0 (100 - (if bridgingDetected analysis then 10 else 0)
          - (if supportDetected analysis then 5 else 0) - 20
          - (if numTruthyAnd (analysis.profile.bind (·.layer_height))
                (fun h => decide (h < (1/10 : ℚ))) then 15 else 0)) := by
    simp only [analyzeForIssues, hhigh, if_true]
    split_ifs <;> norm_num
  refine ⟨?_, hscore, ?_⟩
  · refine ⟨{ category := .safety
              title := "High Temperature Warning"
              description := "Nozzle temperature is "
                ++ numStr ((analysis.profile.bind (·.temperature_nozzle)).getD 0)
                ++ "°C. Ensure proper ventilation and safety precautions."
              impact := .high
              time_saving := none
              material_saving := none
              implementation := some ("Verify material requirements, ensure proper ventilation")
              potential_issues := ["Risk of burns", "Potential toxic fumes",
                "Increased wear on hotend"] }, ?_, rfl, rfl⟩
    apply hmem
    simp only [generateSafetyOptimizations, hcond, if_true]
    exact List.mem_append_left _ (List.mem_cons_self _ _)
  · rw [hscore]
    apply max_le (by norm_num)
    split_ifs <;> norm_num

/-- C5 witness: the 290 °C analysis yields a Safety/High suggestion and
an issue score of exactly 80. -/
theorem safety_always_included_witness :
    ((generateOptimizations exHot290 exSpeedProfile).any
      (fun s => decide (s.category = Category.safety) && decide (s.impact = Impact.high)))
      = true ∧
    (analyzeForIssues exHot290).score = 80 := by
  have h := (safety_always_included exHot290 exSpeedProfile).2
    ({ emptyProfile with temperature_nozzle := some 290 }) rfl rfl
  constructor
  · rw [List.any_eq_true]
    obtain ⟨s, hs, h1, h2⟩ := h.1
    exact ⟨s, hs, by simp [h1, h2]⟩
  · rw [h.2.1]
    norm_num [bridgingDetected, supportDetected, exHot290, numTruthyAnd, emptyProfile, max_def]

/-! ## Progress tracking (C9) -/

lemma afterTicks_acc (k : ℕ) : (afterTicks k).acc = min (10 + 10 * k) 90 := by
  induction k with
  | zero =>
      show (10 : ℕ) = min (10 + 10 * 0) 90
      omega
  | succ n ih =>
      show min ((afterTicks n).acc + 10) 90 = min (10 + 10 * (n + 1)) 90
      rw [ih]
      simp only [min_def]
      split_ifs <;> omega

lemma recProgress_afterTicks (k : ℕ) :
    recProgress (afterTicks k) = if k = 0 then 0 else min (10 + 10 * k) 90 := by
  cases k with
  | zero => rfl
  | succ n =>
      show recProgress (tickJob (afterTicks n)) = _
      simp only [recProgress, tickJob, afterTicks_acc, Option.map_some, Option.map_some',
        Option.getD_some, Nat.succ_ne_zero, if_false]
      simp only [min_def]
      split_ifs <;> omega

/-- C9 (amended): over a job's lifetime the stored progress record is
non-decreasing: it starts at 0, the first tick raises it to 20 and each
later tick adds 10, capped at 90 (so 100 is never stored); on `close`
the record is deleted — exactly at the terminal outcome — after which
`isProcessing` returns `null`; the value 100 is delivered only through
the progress callback, as the final event of a successful run and never
on a failed one. -/
theorem progress_record_behaviour :
    ((afterTicks 0).record = some ⟨0, "starting"⟩) ∧
    (∀ k : ℕ, (afterTicks (k + 1)).record = some ⟨min (10 + 10 * (k + 1)) 90, "analyzing"⟩) ∧
    (∀ j k : ℕ, j ≤ k → recProgress (afterTicks j) ≤ recProgress (afterTicks k)) ∧
    (∀ n : ℕ, ∀ v ∈ storedValues n, v ≤ 90) ∧
    (∀ s : JobState, isProcessing (closeJob s) = none) ∧
    (∀ n : ℕ, (callbackEvents n true).getLast? = some (100, "complete")) ∧
    (∀ n : ℕ, (100, "complete") ∉ callbackEvents n false) := by
  refine ⟨rfl, ?_, ?_, ?_, fun _ => rfl, ?_, ?_⟩
  · intro k
    show (tickJob (afterTicks k)).record = _
    simp only [tickJob, afterTicks_acc]
    have : min (min (10 + 10 * k) 90 + 10) 90 = min (10 + 10 * (k + 1)) 90 := by
      simp only [min_def]
      split_ifs <;> omega
    rw [this]
  · intro j k hjk
    rw [recProgress_afterTicks, recProgress_afterTicks]
    split_ifs <;> omega
  · intro n v hv
    simp only [storedValues, List.mem_cons, List.mem_map] at hv
    rcases hv with h | ⟨i, _, h⟩
    · omega
    · rw [afterTicks_acc] at h
      omega
  · intro n
    simp [callbackEvents]
  · intro n
    simp only [callbackEvents, if_neg Bool.false_ne_true]
    intro hmem
    simp only [List.append_nil, List.mem_map] at hmem
    rcases hmem with ⟨i, _, h⟩
    have := congrArg Prod.snd h
    simp at this

/-- C9 witness: monotonicity and the 90 cap at concrete instants. -/
theorem progress_record_behaviour_witness :
    (recProgress (afterTicks 2) ≤ recProgress (afterTicks 5)) ∧ (20 : ℕ) ≤ 90 :=
  ⟨progress_record_behaviour.2.2.1 2 5 (by norm_num),
   progress_record_behaviour.2.2.2.1 3 20 (by decide)⟩

/-- C9 counterexample: on a job closed after three ticks the stored
sequence is `[0, 20, 30, 40]` — the record is raised by 20 then by 10
(no fixed step) and never holds 100, even though the job completes (the
record being deleted at that point). -/
theorem progress_claim_counterexample :
    storedValues 3 = [0, 20, 30, 40] ∧
    (100 : ℕ) ∉ storedValues 3 ∧
    isProcessing (closeJob (afterTicks 3)) = none ∧
    List.zipWith (fun a b => b - a) (storedValues 3) ((storedValues 3).tail) = [20, 10, 10] ∧
    (20 : ℕ) ≠ 10 := by
  decide

/-! ## Parser support lemmas (C8) -/

lemma ne_of_pred {α : Type} (p : α → Bool) {c d : α} (h : p c = true) (hd : p d = false) :
    c ≠ d := by
  intro he
  rw [he, hd] at h
  exact Bool.false_ne_true h

lemma takeWhile_dropWhile_all_append {p : Char → Bool} :
    ∀ (A B : List Char), (∀ a ∈ A, p a = true) → (∀ c, B.head? = some c → p c = false) →
      (A ++ B).takeWhile p = A ∧ (A ++ B).dropWhile p = B
  | [], B, _, hB => by
      cases B with
      | nil => simp
      | cons b bs =>
          have hb := hB b rfl
          simp [List.takeWhile_cons, List.dropWhile_cons, hb]
  | a :: A', B, hA, hB => by
      have ha := hA a (List.mem_cons_self _ _)
      have ih := takeWhile_dropWhile_all_append A' B
        (fun x hx => hA x (List.mem_cons_of_mem _ hx)) hB
      simp [List.takeWhile_cons, List.dropWhile_cons, ha, ih.1, ih.2]

lemma dropWhile_eq_self_of_head {p : Char → Bool} (l : List Char)
    (h : ∀ c, l.head? = some c → p c = false) : l.dropWhile p = l := by
  cases l with
  | nil => rfl
  | cons c cs => simp [List.dropWhile_cons, h c rfl]

lemma trim_eq_self (l : List Char) (h1 : ∀ c, l.head? = some c → isWS c = false)
    (h2 : ∀ c, l.getLast? = some c → isWS c = false) : trimChars l = l := by
  unfold trimChars
  rw [dropWhile_eq_self_of_head l h1,
    dropWhile_eq_self_of_head l.reverse (fun c hc => h2 c (by rwa [List.head?_reverse] at hc))]
  exact List.reverse_reverse l

lemma getLast?_pred {p : Char → Bool} {l : List Char} (hne : l ≠ [])
    (hall : ∀ c ∈ l, p c = true) : ∃ d, l.getLast? = some d ∧ p d = true := by
  refine ⟨l.getLast hne, ?_, hall _ (List.getLast_mem hne)⟩
  simp [List.getLast?_eq_getLast l hne]

lemma head_not_ws_of_headD {m : List Char} (hne : m ≠ [])
    (h : isWS (m.headD ('x')) = false) : ∀ c, m.head? = some c → isWS c = false := by
  cases m with
  | nil => exact absurd rfl hne
  | cons a l =>
      intro c hc
      simp only [List.head?_cons, Option.some.injEq] at hc
      subst hc
      simpa using h

lemma last_not_ws_of_getLastD {m : List Char} (hne : m ≠ [])
    (h : isWS (m.getLastD ('x')) = false) : ∀ c, m.getLast? = some c → isWS c = false := by
  intro c hc
  rw [List.getLastD_eq_getLast?, hc] at h
  exact h

lemma gmtf_facts {c : Char} (h : gmtf.contains c = true) :
    isWS c = false ∧ c ≠ ';' ∧ c.isDigit = false := by
  have hmem : c = 'G' ∨ c = 'M' ∨ c = 'T' ∨ c = 'F' := by
    simpa [gmtf] using h
  rcases hmem with rfl | rfl | rfl | rfl <;> refine ⟨rfl, by decide, rfl⟩

lemma SignedNum.render_ne_nil {n : SignedNum} (h : n.wf) : n.render ≠ [] := by
  rcases h with ⟨hne, -, -⟩
  intro hr
  rw [SignedNum.render] at hr
  rcases List.append_eq_nil.mp hr with ⟨h2, -⟩
  rcases List.append_eq_nil.mp h2 with ⟨-, h3⟩
  exact hne h3

lemma SignedNum.render_numChars {n : SignedNum} (h : n.wf) :
    ∀ c ∈ n.render, isNumChar c = true := by
  rcases h with ⟨-, hint, hfrac⟩
  intro c hc
  simp only [SignedNum.render, List.mem_append] at hc
  rcases hc with (hc | hc) | hc
  · cases hn : n.neg
    · rw [hn] at hc
      simp at hc
    · rw [hn] at hc
      simp at hc
      rw [hc]
      decide
  · simp [isNumChar, hint c hc]
  · rcases hf : n.fracPart with _ | f
    · rw [hf] at hc
      simp at hc
    · rw [hf] at hc
      rcases List.mem_cons.mp hc with hc | hc
      · rw [hc]
        decide
      · simp [isNumChar, (hfrac f hf).2 c hc]

lemma SignedNum.render_last_digit {n : SignedNum} (h : n.wf) :
    ∃ d, n.render.getLast? = some d ∧ d.isDigit = true := by
  obtain ⟨hne, hint, hfrac⟩ := h
  rcases hf : n.fracPart with _ | f
  · have hr : n.render = ((if n.neg then [('-')] else []) ++ n.intPart) := by
      simp [SignedNum.render, hf]
    rw [hr, List.getLast?_append_of_ne_nil _ hne]
    exact getLast?_pred hne hint
  · obtain ⟨hfne, hfd⟩ := hfrac f hf
    have hr : n.render = (((if n.neg then [('-')] else []) ++ n.intPart) ++ (['.'] ++ f)) := by
      simp [SignedNum.render, hf]
    rw [hr, List.getLast?_append_of_ne_nil _ (by simp [hfne] : ['.'] ++ f ≠ []),
      List.getLast?_append_of_ne_nil _ hfne]
    exact getLast?_pred hfne hfd

lemma parseFloatQ_signed {n : SignedNum} (h : n.wf) : parseFloatQ n.render = some n.val := by
  obtain ⟨hne, hint, hfrac⟩ := h
  have hfracHead : ∀ c,
      (match n.fracPart with | some f => '.' :: f | none => ([] : List Char)).head? = some c →
        c.isDigit = false := by
    rcases hf : n.fracPart with _ | f
    · intro c hc
      simp at hc
    · intro c hc
      simp at hc
      rw [← hc]
      decide
  have hsplit := takeWhile_dropWhile_all_append n.intPart _ hint hfracHead
  have hbody : ∀ t, t = n.intPart ++ (match n.fracPart with | some f => '.' :: f | none => []) →
      ∀ (b : Bool),
      (if (t.takeWhile Char.isDigit) = [] then
        (if (t.dropWhile Char.isDigit).head? = some ('.') then
          (fun fd => if fd = [] then none else
            some (if b then -(fracVal fd) else fracVal fd))
            ((t.dropWhile Char.isDigit).tail.takeWhile Char.isDigit)
        else none)
      else
        (if (t.dropWhile Char.isDigit).head? = some ('.') then
          some (if b then
              -((digitsVal (t.takeWhile Char.isDigit) : ℚ)
                + fracVal ((t.dropWhile Char.isDigit).tail.takeWhile Char.isDigit))
            else (digitsVal (t.takeWhile Char.isDigit) : ℚ)
                + fracVal ((t.dropWhile Char.isDigit).tail.takeWhile Char.isDigit))
        else some (if b then -(digitsVal (t.takeWhile Char.isDigit) : ℚ)
            else (digitsVal (t.takeWhile Char.isDigit) : ℚ))))
      = some (if b then -((digitsVal n.intPart : ℚ) + fracVal (n.fracPart.getD []))
          else ((digitsVal n.intPart : ℚ) + fracVal (n.fracPart.getD []))) := by
    intro t ht b
    rw [ht, hsplit.1, hsplit.2, if_neg hne]
    rcases hf : n.fracPart with _ | f
    · simp only [hf]
      rw [if_neg (by simp : ¬ ([] : List Char).head? = some ('.'))]
      cases b <;> simp [fracVal, digitsVal]
    · obtain ⟨hfne, hfd⟩ := hfrac f hf
      simp only [hf]
      rw [if_pos (show ('.' :: f).head? = some ('.') from rfl)]
      simp only [List.tail_cons]
      rw [List.takeWhile_eq_self_iff.mpr hfd]
      simp
  cases hn : n.neg
  case false =>
    have hrender : n.render
        = n.intPart ++ (match n.fracPart with | some f => '.' :: f | none => []) := by
      simp [SignedNum.render, hn]
    rcases hip : n.intPart with _ | ⟨d, ds⟩
    · exact absurd hip hne
    have hd : d.isDigit = true := hint d (by rw [hip]; exact List.mem_cons_self _ _)
    have hhead : n.render.head? = some d := by
      rw [hrender, hip]
      rfl
    have hm : (n.render.head? == some ('-')) = false := by
      rw [hhead]
      simpa using ne_of_pred Char.isDigit hd (by decide)
    have hp : (n.render.head? == some ('+')) = false := by
      rw [hhead]
      simpa using ne_of_pred Char.isDigit hd (by decide)
    refine Eq.trans ?_ (Eq.trans (hbody n.render hrender false) ?_)
    · unfold parseFloatQ
      rw [hm, hp]
      rfl
    · simp [SignedNum.val, hn]
  case true =>
    have hrender : n.render
        = '-' :: (n.intPart ++ (match n.fracPart with | some f => '.' :: f | none => [])) := by
      simp [SignedNum.render, hn]
    have hm : (n.render.head? == some ('-')) = true := by
      rw [hrender]
      rfl
    have htail : n.render.tail
        = n.intPart ++ (match n.fracPart with | some f => '.' :: f | none => []) := by
      rw [hrender]
      rfl
    refine Eq.trans ?_ (Eq.trans (hbody n.render.tail htail true) ?_)
    · unfold parseFloatQ
      rw [hm]
      rfl
    · simp [SignedNum.val, hn]

lemma paramsFlat_head_numFalse (ps : List (Char × SignedNum)) :
    ∀ c, ((ps.map (fun p => ' ' :: p.1 :: p.2.render)).flatten).head? = some c →
      isNumChar c = false := by
  cases ps with
  | nil => intro c hc; simp at hc
  | cons q qs =>
      intro c hc
      simp only [List.map_cons, List.flatten_cons, List.cons_append, List.head?_cons,
        Option.some.injEq] at hc
      rw [← hc]
      decide

lemma scanParams_flatten :
    ∀ (params : List (Char × SignedNum)),
      (∀ p ∈ params, (p : Char × SignedNum).1.isUpper = true ∧ p.2.wf) →
      scanParams ((params.map (fun p => ' ' :: p.1 :: p.2.render)).flatten)
        = params.map (fun p => (p.1, some p.2.val))
  | [], _ => by simp [scanParams]
  | (c, n) :: ps, h => by
      obtain ⟨hcu, hnwf⟩ := h (c, n) (List.mem_cons_self _ _)
      have htail := scanParams_flatten ps (fun p hp => h p (List.mem_cons_of_mem _ hp))
      have hsplit := takeWhile_dropWhile_all_append n.render
        ((ps.map (fun p => ' ' :: p.1 :: p.2.render)).flatten)
        (SignedNum.render_numChars hnwf) (paramsFlat_head_numFalse ps)
      have hflat : ((((c, n) :: ps).map (fun p => ' ' :: p.1 :: p.2.render)).flatten)
          = ' ' :: c :: (n.render ++ (ps.map (fun p => ' ' :: p.1 :: p.2.render)).flatten) := by
        simp
      rw [hflat]
      rw [scanParams]
      rw [if_neg (by decide : ¬ (' ').isUpper = true)]
      rw [scanParams]
      rw [if_pos hcu, hsplit.1, hsplit.2,
        if_neg (SignedNum.render_ne_nil hnwf), parseFloatQ_signed hnwf, htail]
      simp

lemma foldl_insertParam :
    ∀ (l acc : List (Char × Option ℚ)),
      (l.map Prod.fst).Nodup →
      (∀ kv ∈ l, ∀ kv' ∈ acc, (kv : Char × Option ℚ).1 ≠ (kv' : Char × Option ℚ).1) →
      l.foldl (fun ps kv => insertParam ps kv.1 kv.2) acc = acc ++ l
  | [], acc, _, _ => by simp
  | kv :: rest, acc, hnodup, hdisj => by
      have hnotin : acc.any (fun q => q.1 == kv.1) = false := by
        rw [List.any_eq_false]
        intro q hq
        simp only [beq_iff_eq]
        intro he
        exact hdisj kv (List.mem_cons_self _ _) q hq he.symm
      have hstep : insertParam acc kv.1 kv.2 = acc ++ [kv] := by
        simp [insertParam, hnotin]
      have hnodup' : (rest.map Prod.fst).Nodup := by
        rw [List.map_cons] at hnodup
        exact (List.nodup_cons.mp hnodup).2
      have hnotmem : kv.1 ∉ rest.map Prod.fst := by
        rw [List.map_cons] at hnodup
        exact (List.nodup_cons.mp hnodup).1
      have hdisj' : ∀ kv' ∈ rest, ∀ kv'' ∈ acc ++ [kv],
          (kv' : Char × Option ℚ).1 ≠ (kv'' : Char × Option ℚ).1 := by
        intro kv' h1 kv'' h2
        rcases List.mem_append.mp h2 with h2 | h2
        · exact hdisj kv' (List.mem_cons_of_mem _ h1) kv'' h2
        · rw [List.mem_singleton.mp h2]
          intro he
          exact hnotmem (he ▸ List.mem_map_of_mem Prod.fst h1)
      rw [List.foldl_cons, hstep, foldl_insertParam rest (acc ++ [kv]) hnodup' hdisj']
      simp

lemma buildParams_of_nodup (l : List (Char × Option ℚ)) (h : (l.map Prod.fst).Nodup) :
    buildParams l = l := by
  have := foldl_insertParam l [] h (by simp)
  simpa [buildParams] using this

lemma matchMain_eq_none_iff (cmd : List Char) :
    matchMain cmd = none ↔ (cmd = [] ∨ ∃ c cs, cmd = c :: cs ∧
      (gmtf.contains c = false ∨ cs.takeWhile Char.isDigit = [])) := by
  cases cmd with
  | nil => simp [matchMain]
  | cons c cs =>
      simp only [matchMain]
      constructor
      · intro h
        by_cases hg : gmtf.contains c = true
        · rw [if_pos hg] at h
          by_cases hd : cs.takeWhile Char.isDigit = []
          · exact Or.inr ⟨c, cs, rfl, Or.inr hd⟩
          · rw [if_neg hd] at h
            by_cases hdot : (cs.dropWhile Char.isDigit).head? = some ('.')
            · rw [if_pos hdot] at h
              by_cases hfs : (cs.dropWhile Char.isDigit).tail.takeWhile Char.isDigit = []
              · rw [if_pos hfs] at h
                exact absurd h (by simp)
              · rw [if_neg hfs] at h
                exact absurd h (by simp)
            · rw [if_neg hdot] at h
              exact absurd h (by simp)
        · refine Or.inr ⟨c, cs, rfl, Or.inl ?_⟩
          cases hgc : gmtf.contains c
          · rfl
          · exact absurd hgc hg
      · intro h
        rcases h with h | ⟨c', cs', heq, hor⟩
        · exact absurd h (by simp)
        · injection heq with h1 h2
          subst h1
          subst h2
          rcases hor with hg | hd
          · rw [hg]
            simp
          · cases hgc : gmtf.contains c <;> simp [hgc, hd]

lemma isWS_false_of_digit {d : Char} (h : d.isDigit = true) : isWS d = false := by
  cases hi : isWS d
  · rfl
  · have hd : ((d = ' ' ∨ d = '\t') ∨ d = '\n') ∨ d = '\r' := by simpa [isWS] using hi
    rcases hd with ((rfl | rfl) | rfl) | rfl <;> exact absurd h (by decide)

lemma isDigit_false_of_numFalse {c : Char} (h : isNumChar c = false) : c.isDigit = false := by
  cases hd : c.isDigit
  · rfl
  · rw [show isNumChar c = true by simp [isNumChar, hd]] at h
    exact absurd h (by simp)

lemma render_decomp (g : GLineSpec) : g.render = g.commandPart ++ g.commentR := by
  simp [GLineSpec.render, GLineSpec.commandPart, GLineSpec.codeR, GLineSpec.paramsFlat,
    GLineSpec.commentR, List.append_assoc]

lemma commandPart_no_semi {g : GLineSpec} (h : g.wf) : ∀ c ∈ g.commandPart, c ≠ ';' := by
  obtain ⟨hty, hcne, hcint, hcfrac, hparams, -, -⟩ := h
  intro c hc
  rcases List.mem_cons.mp hc with rfl | hc
  · exact (gmtf_facts hty).2.1
  rcases List.mem_append.mp hc with hc | hc
  · have hwf0 : (SignedNum.mk false g.codeInt g.codeFrac).wf := ⟨hcne, hcint, hcfrac⟩
    have hr : (SignedNum.mk false g.codeInt g.codeFrac).render = g.codeR := by
      simp [SignedNum.render, GLineSpec.codeR]
    have hnum := SignedNum.render_numChars hwf0 c (by rw [hr]; exact hc)
    exact ne_of_pred isNumChar hnum (by decide)
  · rw [GLineSpec.paramsFlat, List.mem_flatten] at hc
    obtain ⟨l, hl, hcl⟩ := hc
    obtain ⟨p, hp, rfl⟩ := List.mem_map.mp hl
    obtain ⟨hup, hwfp⟩ := hparams p hp
    rcases List.mem_cons.mp hcl with rfl | hcl
    · decide
    rcases List.mem_cons.mp hcl with rfl | hcl
    · exact ne_of_pred Char.isUpper hup (by decide)
    · exact ne_of_pred isNumChar (SignedNum.render_numChars hwfp c hcl) (by decide)

lemma paramsFlat_last :
    ∀ (ps : List (Char × SignedNum)),
      (∀ p ∈ ps, (p : Char × SignedNum).1.isUpper = true ∧ p.2.wf) → ps ≠ [] →
      ∃ d, ((ps.map (fun p => ' ' :: p.1 :: p.2.render)).flatten).getLast? = some d
        ∧ d.isDigit = true
  | [], _, hne => absurd rfl hne
  | [q], h, _ => by
      obtain ⟨-, hwfq⟩ := h q (List.mem_cons_self _ _)
      have : (([q].map (fun p => ' ' :: p.1 :: p.2.render)).flatten)
          = ([' ', q.1] ++ q.2.render) := by simp
      rw [this, List.getLast?_append_of_ne_nil _ (SignedNum.render_ne_nil hwfq)]
      exact SignedNum.render_last_digit hwfq
  | q :: q' :: qs, h, _ => by
      have ih := paramsFlat_last (q' :: qs)
        (fun p hp => h p (List.mem_cons_of_mem _ hp)) (by simp)
      have hne2 : (((q' :: qs).map (fun p => ' ' :: p.1 :: p.2.render)).flatten) ≠ [] := by
        simp
      have : (((q :: q' :: qs).map (fun p => ' ' :: p.1 :: p.2.render)).flatten)
          = (' ' :: q.1 :: q.2.render)
            ++ ((q' :: qs).map (fun p => ' ' :: p.1 :: p.2.render)).flatten := by
        simp
      rw [this, List.getLast?_append_of_ne_nil _ hne2]
      exact ih

lemma commandPart_last {g : GLineSpec} (h : g.wf) :
    ∃ d, g.commandPart.getLast? = some d ∧ d.isDigit = true := by
  obtain ⟨hty, hcne, hcint, hcfrac, hparams, -, -⟩ := h
  have hwf0 : (SignedNum.mk false g.codeInt g.codeFrac).wf := ⟨hcne, hcint, hcfrac⟩
  have hr : (SignedNum.mk false g.codeInt g.codeFrac).render = g.codeR := by
    simp [SignedNum.render, GLineSpec.codeR]
  rcases hps : g.params with _ | ⟨q, qs⟩
  · have hflat : g.paramsFlat = [] := by simp [GLineSpec.paramsFlat, hps]
    have : g.commandPart = [g.ty] ++ g.codeR := by
      simp [GLineSpec.commandPart, hflat]
    rw [this, List.getLast?_append_of_ne_nil _ (by rw [← hr]; exact SignedNum.render_ne_nil hwf0)]
    rw [← hr]
    exact SignedNum.render_last_digit hwf0
  · have hflatne : g.paramsFlat ≠ [] := by
      simp [GLineSpec.paramsFlat, hps]
    have : g.commandPart = ([g.ty] ++ g.codeR) ++ g.paramsFlat := by
      simp [GLineSpec.commandPart, List.append_assoc]
    rw [this, List.getLast?_append_of_ne_nil _ hflatne]
    have h2 := paramsFlat_last g.params hparams (by rw [hps]; simp)
    simp only [GLineSpec.paramsFlat]
    exact h2

lemma matchMain_commandPart {g : GLineSpec} (h : g.wf) :
    matchMain g.commandPart = some (g.ty, g.codeR, g.paramsFlat) := by
  obtain ⟨hty, hcne, hcint, hcfrac, -, -, -⟩ := h
  have hdot : ¬ g.paramsFlat.head? = some ('.') := by
    intro hc
    exact absurd (paramsFlat_head_numFalse g.params _ hc) (by decide)
  rcases hf : g.codeFrac with _ | f
  · have hcr : g.codeR = g.codeInt := by
      simp [GLineSpec.codeR, hf]
    have hsplit := takeWhile_dropWhile_all_append g.codeInt g.paramsFlat hcint
      (fun c hc => isDigit_false_of_numFalse (paramsFlat_head_numFalse g.params c hc))
    have hcp : g.commandPart = g.ty :: (g.codeInt ++ g.paramsFlat) := by
      simp [GLineSpec.commandPart, hcr]
    rw [hcp]
    simp only [matchMain]
    rw [if_pos hty, hsplit.1, hsplit.2, if_neg hcne, if_neg hdot, hcr]
  · obtain ⟨hfne, hfd⟩ := hcfrac f hf
    have hcr : g.codeR = g.codeInt ++ '.' :: f := by
      simp [GLineSpec.codeR, hf]
    have hsplit1 := takeWhile_dropWhile_all_append g.codeInt (('.' :: f) ++ g.paramsFlat) hcint
      (by
        intro c hc
        simp only [List.cons_append, List.head?_cons, Option.some.injEq] at hc
        rw [← hc]
        decide)
    have hsplit2 := takeWhile_dropWhile_all_append f g.paramsFlat hfd
      (fun c hc => isDigit_false_of_numFalse (paramsFlat_head_numFalse g.params c hc))
    have hcp : g.commandPart = g.ty :: (g.codeInt ++ (('.' :: f) ++ g.paramsFlat)) := by
      simp [GLineSpec.commandPart, hcr, List.append_assoc]
    rw [hcp]
    simp only [matchMain]
    rw [if_pos hty, hsplit1.1, hsplit1.2, if_neg hcne,
      if_pos (show (('.' :: f) ++ g.paramsFlat).head? = some ('.') from rfl)]
    simp only [List.cons_append, List.tail_cons]
    rw [hsplit2.1, hsplit2.2, if_neg hfne, hcr]

lemma findIdx_append_semi :
    ∀ (A : List Char), (∀ c ∈ A, c ≠ ';') → ∀ (B : List Char),
      (A ++ ';' :: B).findIdx (fun x => x == ';') = A.length
  | [], _, B => by simp [List.findIdx_cons]
  | a :: A', h, B => by
      have ha : (a == ';') = false := by
        simpa using h a (List.mem_cons_self _ _)
      simp [List.findIdx_cons, ha,
        findIdx_append_semi A' (fun c hc => h c (List.mem_cons_of_mem _ hc)) B]

lemma strip_of_no_semi {A : List Char} (h : ∀ c ∈ A, c ≠ ';') :
    stripInlineComment A = (A, []) := by
  have hmem : (';') ∉ A := fun hm => h (';') hm rfl
  have hcc : A.contains (';') = false := by simpa using hmem
  have hji : jsIndexOf A (';') = -1 := by
    rw [jsIndexOf, if_neg (show ¬ A.contains (';') = true by rw [hcc]; simp)]
  simp only [stripInlineComment]
  rw [hji, if_neg (by decide : ¬ (0 : ℤ) < -1)]

lemma strip_command_comment {A m : List Char} (hA : ∀ c ∈ A, c ≠ ';') (hAne : A ≠ [])
    (hAhead : ∀ c, A.head? = some c → isWS c = false)
    (hAlast : ∀ c, A.getLast? = some c → isWS c = false)
    (hmne : m ≠ []) (hmhead : isWS (m.headD ('x')) = false)
    (hmlast : isWS (m.getLastD ('x')) = false) :
    stripInlineComment (A ++ ';' :: m) = (A, m) := by
  have hcc : (A ++ ';' :: m).contains (';') = true := by simp
  have hfi := findIdx_append_semi A hA m
  have hAlen : 0 < A.length := List.length_pos.mpr hAne
  have hji : jsIndexOf (A ++ ';' :: m) (';') = (A.length : ℤ) := by
    rw [jsIndexOf, if_pos hcc, hfi]
  have h1 : (A ++ ';' :: m).drop A.length = ';' :: m := List.drop_left A _
  have hdrop : (A ++ ';' :: m).drop (A.length + 1) = m := by
    have h2 := congrArg (List.drop 1) h1
    rw [List.drop_drop] at h2
    simpa [Nat.add_comm] using h2
  have htA : trimChars A = A := trim_eq_self A hAhead hAlast
  have htm : trimChars m = m :=
    trim_eq_self m (head_not_ws_of_headD hmne hmhead) (last_not_ws_of_getLastD hmne hmlast)
  simp only [stripInlineComment]
  rw [hji, if_pos (show (0 : ℤ) < (A.length : ℤ) by exact_mod_cast hAlen),
    Int.toNat_natCast, List.take_left, hdrop, htA, htm]

lemma parseGCodeCommand_pos {line : List Char} {ln : ℕ} {ty : Char} {cs ps : List Char}
    (h0 : ¬ trimChars line = []) (h1 : ¬ (trimChars line).head? = some (';'))
    (h2 : matchMain (stripInlineComment (trimChars line)).1 = some (ty, cs, ps)) :
    parseGCodeCommand line ln
      = some { type := ty
               code := (parseFloatQ cs).getD 0
               params := buildParams (scanParams ps)
               comment := if (stripInlineComment (trimChars line)).2 = [] then none
                          else some ((stripInlineComment (trimChars line)).2)
               lineNumber := ln } := by
  simp only [parseGCodeCommand]
  rw [if_neg h0, if_neg h1, h2]

/-- **C8.** `parseGCodeCommand` returns `none` — emitting no command and
raising no error — when the trimmed line is blank, when it is a pure
comment (its first character is `;`), or when the command part fails the
leading `[GMTF]<number>` match (`matchMain = none`, characterised
exactly); and on every line of the command grammar it returns a command
with that type letter, that (possibly fractional) numeric code, the
params map sending each parameter letter to its signed number, the text
after the first `;` as the comment, and the given line number. -/
theorem parseGCodeCommand_spec :
    (∀ (line : List Char) (ln : ℕ), trimChars line = [] →
      parseGCodeCommand line ln = none) ∧
    (∀ (line : List Char) (ln : ℕ), (trimChars line).head? = some (';') →
      parseGCodeCommand line ln = none) ∧
    (∀ (line : List Char) (ln : ℕ),
      matchMain (stripInlineComment (trimChars line)).1 = none →
      parseGCodeCommand line ln = none) ∧
    (∀ cmd : List Char, matchMain cmd = none ↔ (cmd = [] ∨ ∃ c cs, cmd = c :: cs ∧
      (gmtf.contains c = false ∨ cs.takeWhile Char.isDigit = []))) ∧
    (∀ (g : GLineSpec) (ln : ℕ), g.wf →
      parseGCodeCommand g.render ln = some
        { type := g.ty
          code := (digitsVal g.codeInt : ℚ) + fracVal (g.codeFrac.getD [])
          params := g.params.map (fun p => (p.1, some p.2.val))
          comment := g.comment
          lineNumber := ln }) := by
  refine ⟨?_, ?_, ?_, matchMain_eq_none_iff, ?_⟩
  · intro line ln h
    simp [parseGCodeCommand, h]
  · intro line ln h
    by_cases h0 : trimChars line = []
    · simp [parseGCodeCommand, h0]
    · simp [parseGCodeCommand, h0, h]
  · intro line ln h
    by_cases h0 : trimChars line = []
    · simp [parseGCodeCommand, h0]
    by_cases h1 : (trimChars line).head? = some (';')
    · simp [parseGCodeCommand, h0, h1]
    · simp [parseGCodeCommand, h0, h1, h]
  · intro g ln hwf
    have hw := hwf
    obtain ⟨hty, hcne, hcint, hcfrac, hparams, hnodup, hcomment⟩ := hw
    have hrend := render_decomp g
    have hcpne : g.commandPart ≠ [] := by simp [GLineSpec.commandPart]
    have hcphead : ∀ c, g.commandPart.head? = some c → isWS c = false := by
      intro c hc
      simp only [GLineSpec.commandPart, List.head?_cons, Option.some.injEq] at hc
      rw [← hc]
      exact (gmtf_facts hty).1
    have hcplast : ∀ c, g.commandPart.getLast? = some c → isWS c = false := by
      intro c hc
      obtain ⟨d, hd, hdig⟩ := commandPart_last hwf
      rw [hd] at hc
      injection hc with hc
      rw [← hc]
      exact isWS_false_of_digit hdig
    have hnosemi := commandPart_no_semi hwf
    have hn0 : (SignedNum.mk false g.codeInt g.codeFrac).wf := ⟨hcne, hcint, hcfrac⟩
    have hr0 : (SignedNum.mk false g.codeInt g.codeFrac).render = g.codeR := by
      simp [SignedNum.render, GLineSpec.codeR]
    have hcode : parseFloatQ g.codeR
        = some ((digitsVal g.codeInt : ℚ) + fracVal (g.codeFrac.getD [])) := by
      have h2 := parseFloatQ_signed hn0
      rw [hr0] at h2
      simpa [SignedNum.val] using h2
    have hscan : scanParams g.paramsFlat = g.params.map (fun p => (p.1, some p.2.val)) :=
      scanParams_flatten g.params hparams
    have hkeys : ((g.params.map (fun p => (p.1, some p.2.val))).map Prod.fst).Nodup := by
      have he : (g.params.map (fun p => (p.1, some p.2.val))).map Prod.fst
          = g.params.map Prod.fst := by
        simp
      rw [he]
      exact hnodup
    have hbp := buildParams_of_nodup (g.params.map (fun p => (p.1, some p.2.val))) hkeys
    rcases hcm : g.comment with _ | m
    case none =>
      have hr : g.render = g.commandPart := by
        rw [hrend]
        simp [GLineSpec.commentR, hcm]
      have htrim : trimChars g.render = g.render := by
        rw [hr]
        exact trim_eq_self _ hcphead hcplast
      have hne : g.render ≠ [] := by
        rw [hr]
        exact hcpne
      have h0 : ¬ trimChars g.render = [] := by
        rw [htrim]
        exact hne
      have h1 : ¬ (trimChars g.render).head? = some (';') := by
        rw [htrim, hr]
        simp only [GLineSpec.commandPart, List.head?_cons]
        intro hx
        injection hx with hx
        exact (gmtf_facts hty).2.1 hx
      have hs : stripInlineComment (trimChars g.render) = (g.commandPart, []) := by
        rw [htrim, hr]
        exact strip_of_no_semi hnosemi
      have hm2 : matchMain (stripInlineComment (trimChars g.render)).1
          = some (g.ty, g.codeR, g.paramsFlat) := by
        rw [hs]
        exact matchMain_commandPart hwf
      rw [parseGCodeCommand_pos h0 h1 hm2, hcode, hs, hscan, hbp]
      simp
    case some =>
      obtain ⟨hmne, hmh, hml⟩ := hcomment m hcm
      have hr : g.render = g.commandPart ++ ';' :: m := by
        rw [hrend]
        simp [GLineSpec.commentR, hcm]
      have hhead2 : ∀ c, g.render.head? = some c → isWS c = false := by
        intro c hc
        rw [hr] at hc
        simp only [GLineSpec.commandPart, List.cons_append, List.head?_cons,
          Option.some.injEq] at hc
        rw [← hc]
        exact (gmtf_facts hty).1
      have hlast2 : ∀ c, g.render.getLast? = some c → isWS c = false := by
        intro c hc
        rw [hr, List.getLast?_append_of_ne_nil _ (by simp : (';' :: m) ≠ [])] at hc
        rw [show (';' :: m) = [';'] ++ m from rfl,
          List.getLast?_append_of_ne_nil _ hmne] at hc
        exact last_not_ws_of_getLastD hmne hml c hc
      have htrim : trimChars g.render = g.render := trim_eq_self _ hhead2 hlast2
      have hne : g.render ≠ [] := by
        rw [hr]
        simp [GLineSpec.commandPart]
      have h0 : ¬ trimChars g.render = [] := by
        rw [htrim]
        exact hne
      have h1 : ¬ (trimChars g.render).head? = some (';') := by
        rw [htrim, hr]
        simp only [GLineSpec.commandPart, List.cons_append, List.head?_cons]
        intro hx
        injection hx with hx
        exact (gmtf_facts hty).2.1 hx
      have hs : stripInlineComment (trimChars g.render) = (g.commandPart, m) := by
        rw [htrim, hr]
        exact strip_command_comment hnosemi hcpne hcphead hcplast hmne hmh hml
      have hm2 : matchMain (stripInlineComment (trimChars g.render)).1
          = some (g.ty, g.codeR, g.paramsFlat) := by
        rw [hs]
        exact matchMain_commandPart hwf
      rw [parseGCodeCommand_pos h0 h1 hm2, hcode, hs, hscan, hbp]
      simp [hmne]

/-- Witness for `parseGCodeCommand_spec`: the line `G1 X-12.5 Y4;move`
parses to a `G1` command with `X = -12.5`, `Y = 4` and comment `move`. -/
theorem parseGCodeCommand_spec_witness :
    parseGCodeCommand gEx.render 7 = some
      { type := ('G')
        code := 1
        params := [(('X'), some ((-25 : ℚ) / 2)), (('Y'), some (4 : ℚ))]
        comment := some ['m', 'o', 'v', 'e']
        lineNumber := 7 } := by
  have hwf : gEx.wf := by
    refine ⟨by decide, by decide, by decide, ?_, ?_, by decide, ?_⟩
    · intro f hf
      exact Option.noConfusion hf
    · intro p hp
      rcases List.mem_cons.mp hp with rfl | hp
      · refine ⟨by decide, by decide, by decide, ?_⟩
        intro f hf
        injection hf with hf
        rw [← hf]
        exact ⟨by decide, by decide⟩
      rcases List.mem_cons.mp hp with rfl | hp
      · refine ⟨by decide, by decide, by decide, ?_⟩
        intro f hf
        exact Option.noConfusion hf
      · exact absurd hp (List.not_mem_nil _)
    · intro m hm
      injection hm with hm
      rw [← hm]
      exact ⟨by decide, by decide, by decide⟩
  refine (parseGCodeCommand_spec.2.2.2.2 gEx 7 hwf).trans ?_
  norm_num [gEx, digitsVal, fracVal, SignedNum.val, List.foldl]
  norm_num [show ('1').toNat - 48 = 1 from rfl, show ('2').toNat - 48 = 2 from rfl,
    show ('4').toNat - 48 = 4 from rfl, show ('5').toNat - 48 = 5 from rfl]

end Stratify
